import Mathlib

/-!
Response: decompression, content cache and derived views.

A shallow embedding of `response.go` (package `request`).  The methods of
`Response` are Lean functions over an explicit I/O state (`World`): the body
stream as the pieces its `Read` calls return, the decoders over it, the reader
pool, and the record of the calls made.  The Go standard library calls the
methods make (`strings`, `unicode`, `io/ioutil`, `bufio`, `compress/gzip`,
`compress/zlib`, `sync.Pool`, `net/http`, `net/url`) are separate, documented
definitions.  The parts of the standard library that are tables or algorithms
of their own (the Unicode case table, the gzip and zlib formats, the URL parser
and resolver) are fields of `Stdlib`; `sampleStd` is an instance of it on which
the definitions evaluate.
-/

namespace Request

/-! ## Go values -/

/-- A Go string, as the sequence of its Unicode code points.  (A byte that is not valid
UTF-8 is not white space for `strings.TrimSpace` and comes out of `strings.ToLower` as
U+FFFD; it stands here as U+FFFD.) -/
abbrev GoString := List Nat

/-- The Go string of a literal. -/
def str (s : String) : GoString := s.toList.map Char.toNat

/-- A Go byte slice that is not nil; a nil slice is `none : Option Bytes`. -/
abbrev Bytes := List Nat

/-- A Go error value that is not nil, by its message. -/
abbrev Error := GoString

/-- The fields of `url.URL` the claims look at. -/
structure URL where
  Scheme : GoString
  Host : GoString
  Path : GoString
  RawQuery : GoString
  Fragment : GoString
deriving DecidableEq, Repr

/-- The parts of the Go standard library that are tables or algorithms of their
own, taken as given. -/
structure Stdlib where
  /-- `unicode.To(unicode.LowerCase, r)`: the case table, consulted for runes above ASCII. -/
  caseTable : Nat → Nat
  /-- `(*gzip.Reader).readHeader`, which `gzip.NewReader` and `Reset` run, on a source that
  holds the given bytes and then ends with the given error (`none` for `io.EOF`): how many
  bytes it asks the source for, and its error, `none` when the header is accepted. -/
  gzipHeader : Bytes → Option Error → Nat × Option Error
  /-- A gzip reader read to its end, on what follows the header: how many bytes it asks the
  source for, the bytes it decodes, and its error, `none` when it ends with `io.EOF`. -/
  gzipInflate : Bytes → Option Error → Nat × Bytes × Option Error
  /-- The header read of `zlib.NewReader`, as for gzip. -/
  zlibHeader : Bytes → Option Error → Nat × Option Error
  /-- A zlib reader read to its end, as for gzip. -/
  zlibInflate : Bytes → Option Error → Nat × Bytes × Option Error
  /-- `url.Parse`. -/
  urlParse : GoString → Except Error URL
  /-- `(*url.URL).ResolveReference`: receiver first, reference second. -/
  ResolveReference : URL → URL → URL

/-! ## `unicode` and `strings` -/

/-- `unicode.IsSpace`: the Latin-1 switch, then the `White_Space` table. -/
def unicode.IsSpace (r : Nat) : Bool :=
  if r ≤ 0xFF then
    decide (r = 0x09 ∨ r = 0x0A ∨ r = 0x0B ∨ r = 0x0C ∨ r = 0x0D ∨ r = 0x20 ∨ r = 0x85 ∨ r = 0xA0)
  else
    decide (r = 0x1680 ∨ (0x2000 ≤ r ∧ r ≤ 0x200A) ∨ r = 0x2028 ∨ r = 0x2029 ∨ r = 0x202F
      ∨ r = 0x205F ∨ r = 0x3000)

/-- `unicode.ToLower`: ASCII is handled inline, everything else by the case table. -/
def unicode.ToLower (std : Stdlib) (r : Nat) : Nat :=
  if r ≤ 0x7F then
    if 0x41 ≤ r ∧ r ≤ 0x5A then r + (0x61 - 0x41) else r
  else std.caseTable r

/-- `strings.ToLower`: every rune mapped by `unicode.ToLower`. -/
def strings.ToLower (std : Stdlib) (s : GoString) : GoString :=
  s.map (unicode.ToLower std)

/-- `strings.TrimSpace`: leading and trailing runes with `unicode.IsSpace` removed. -/
def strings.TrimSpace (s : GoString) : GoString :=
  (s.dropWhile unicode.IsSpace).rdropWhile unicode.IsSpace

/-! ## `net/http` values -/

/-- `http.Header`: canonical key to values. -/
abbrev Header := List (GoString × List GoString)

/-- `http.Header.Get`: the first value of the key, or the empty string. -/
def Header.Get (h : Header) (key : GoString) : GoString :=
  match h.lookup key with
  | some (v :: _) => v
  | _ => []

/-- `http.StatusMovedPermanently`. -/
def http.StatusMovedPermanently : Int := 301
/-- `http.StatusFound`. -/
def http.StatusFound : Int := 302
/-- `http.StatusSeeOther`. -/
def http.StatusSeeOther : Int := 303
/-- `http.StatusTemporaryRedirect`. -/
def http.StatusTemporaryRedirect : Int := 307

/-- `http.ErrNoLocation`. -/
def http.ErrNoLocation : Error := str "http: no Location header in response"

/-- `Response`: the embedded `*http.Response` (status, header, request URL; its `Body` stream
lives in `World`) and the `content` cache, `none` for a nil slice. -/
structure Response where
  StatusCode : Int
  Status : GoString
  Header : Header
  RequestURL : URL
  content : Option Bytes
deriving DecidableEq, Repr

/-! ## The I/O state -/

/-- An `io.ReadCloser` a `Response` hands out: `resp.Body` itself, or a gzip or zlib decoder
(by its identity) reading from `resp.Body`. -/
inductive Reader where
  | body
  | gzip (d : Nat)
  | zlib (d : Nat)
deriving DecidableEq, Repr

/-- The calls made on the streams, the decoder constructors and the pool. -/
inductive Event where
  | bodyRead
  | close (r : Reader)
  | gzipNewReader
  | gzipReset (d : Nat)
  | zlibNewReader
  | poolGet
  | poolPut (d : Nat)
deriving DecidableEq, Repr

/-- The state outside a `Response`: its `Body` stream, the decoders built over it, the
process-wide `gzipReaderSyncPool`, and the record of the calls made so far. -/
structure World where
  /-- The body: the data not yet delivered, in the pieces successive `Read` calls return
  (each short enough for the buffer it is read into). -/
  chunks : List Bytes
  /-- The body: the error `Read` reports once the data is exhausted, `none` for `io.EOF`. -/
  failure : Option Error
  /-- The decoders: compressed input already pulled from the body and not yet decoded. -/
  bufs : List (Nat × Bytes)
  /-- The identity the next decoder built gets. -/
  nextDecoder : Nat
  /-- The idle decoders of `gzipReaderSyncPool`. -/
  pool : List Nat
  /-- The calls made so far, oldest first. -/
  trace : List Event
deriving DecidableEq, Repr

/-- Records one call. -/
def World.log (w : World) (e : Event) : World :=
  { w with trace := w.trace ++ [e] }

/-- Number of `Read` calls made on the body. -/
def World.bodyReads (w : World) : Nat := w.trace.count Event.bodyRead

/-- Number of `Close` calls made on a reader. -/
def World.closes (w : World) (r : Reader) : Nat := w.trace.count (Event.close r)

/-- The buffered input of a decoder. -/
def World.buf (w : World) (d : Nat) : Bytes := (w.bufs.lookup d).getD []

/-- `io.EOF`. -/
def io.EOF : Error := str "EOF"

/-- `io.ErrUnexpectedEOF`. -/
def io.ErrUnexpectedEOF : Error := str "unexpected EOF"

/-- The error `errReadOnClosedResBody` of `net/http`, which a response body reports on a `Read`
after `Close`. -/
def http.errReadOnClosedResBody : Error := str "http: read on closed response body"

/-- One `resp.Body.Read`, with room for the next piece: the next piece of data, `io.EOF` or the
stream's failure once the data is exhausted, `errReadOnClosedResBody` on a closed body. -/
def Body.Read (w : World) : Bytes × Option Error × World :=
  let w1 := w.log Event.bodyRead
  if 0 < w.closes Reader.body then ([], some http.errReadOnClosedResBody, w1)
  else
    match w.chunks with
    | c :: cs => (c, none, { w1 with chunks := cs })
    | [] => ([], some (w.failure.getD io.EOF), w1)

/-- What the body still holds, as a reader of it will see it: the bytes to come, and the error
after them, `none` for `io.EOF`. -/
def World.source (w : World) : Bytes × Option Error :=
  if 0 < w.closes Reader.body then ([], some http.errReadOnClosedResBody)
  else (w.chunks.flatten, if w.failure = some io.EOF then none else w.failure)

/-- What `ioutil.ReadAll(resp.Body)` comes to: `Read` is called until it reports an error,
`io.EOF` turned into nil (`Body.readLoop`, see `Body_ReadAll_eq_readLoop`).  The buffer is
allocated before the first `Read`, so the slice returned is never nil. -/
def Body.ReadAll (w : World) : Bytes × Option Error × World :=
  if 0 < w.closes Reader.body then
    ([], some http.errReadOnClosedResBody, w.log Event.bodyRead)
  else
    (w.chunks.flatten, if w.failure = some io.EOF then none else w.failure,
      { w with chunks := [],
               trace := w.trace ++ List.replicate (w.chunks.length + 1) Event.bodyRead })

/-- The loop of `ioutil.ReadAll` on `resp.Body`, run for at most `fuel` calls of `Read`;
`none` when that is not enough. -/
def Body.readLoop : Nat → Bytes → World → Option (Bytes × Option Error × World)
  | 0, _, _ => none
  | fuel + 1, b, w =>
    match Body.Read w with
    | (c, none, w1) => Body.readLoop fuel (b ++ c) w1
    | (c, some err, w1) => some (b ++ c, if err = io.EOF then none else some err, w1)

/-- The pieces a buffered reader takes from an open body to hold `need` bytes: the bytes
buffered, the pieces left, and the number of `Read` calls, the one that reports the end
included. -/
def Body.fill (need : Nat) : List Bytes → Bytes → Nat → Bytes × List Bytes × Nat
  | [], b, k => if need ≤ b.length then (b, [], k) else (b, [], k + 1)
  | c :: cs, b, k =>
    if need ≤ b.length then (b, c :: cs, k) else Body.fill need cs (b ++ c) (k + 1)

/-- What a buffered reader asked for `need` bytes takes from the body when it holds `b`:
nothing when it holds enough, one failing `Read` from a closed body, and from an open body the
pieces of `Body.fill`. -/
def Body.take (need : Nat) (closed : Bool) (cs : List Bytes) (b : Bytes) :
    Bytes × List Bytes × Nat :=
  if closed then (b, cs, if need ≤ b.length then 0 else 1) else Body.fill need cs b 0

/-- The `bufio.Reader` a decoder puts over `resp.Body`, asked for `need` bytes when it holds
`buffered`: it calls `Read` on the body only while it holds too few, one piece a call, and
stops at the first error (`Body_pull_enough`, `Body_pull_step`). -/
def Body.pull (need : Nat) (buffered : Bytes) (w : World) : Bytes × World :=
  match Body.take need (decide (0 < w.closes Reader.body)) w.chunks buffered with
  | (b, cs, k) =>
    (b, { w with chunks := cs, trace := w.trace ++ List.replicate k Event.bodyRead })

/-- `ioutil.ReadAll`: the reader read to its end.  A decoder decodes what it has buffered and
what the body still holds, and takes from the body the pieces that hold the bytes it asks
for. -/
def ioutil.ReadAll (std : Stdlib) (r : Reader) (w : World) : Bytes × Option Error × World :=
  match r with
  | Reader.body => Body.ReadAll w
  | Reader.gzip d =>
    match std.gzipInflate (w.buf d ++ w.source.1) w.source.2 with
    | (need, out, err) =>
      match Body.pull need (w.buf d) w with
      | (b, w1) => (out, err, { w1 with bufs := (d, b.drop need) :: w1.bufs })
  | Reader.zlib d =>
    match std.zlibInflate (w.buf d ++ w.source.1) w.source.2 with
    | (need, out, err) =>
      match Body.pull need (w.buf d) w with
      | (b, w1) => (out, err, { w1 with bufs := (d, b.drop need) :: w1.bufs })

/-- `Close` of a reader.  On `resp.Body` it closes the body.  `(*gzip.Reader).Close` and the
`Close` of a zlib reader close the decoder only: neither closes the `io.Reader` it wraps. -/
def Reader.Close (r : Reader) (w : World) : World := w.log (Event.close r)

/-- `gzipReader.Reset(resp.Body)`: a new `bufio.Reader` over the body, through which the
header is read; what it took beyond the header stays buffered. -/
def gzip.Reset (std : Stdlib) (d : Nat) (w : World) : Option Error × World :=
  match std.gzipHeader w.source.1 w.source.2 with
  | (need, err) =>
    match Body.pull need [] (w.log (Event.gzipReset d)) with
    | (b, w1) => (err, { w1 with bufs := (d, b.drop need) :: w1.bufs })

/-- `gzip.NewReader(resp.Body)`: a new decoder that reads the header as `Reset` does, and nil
with the error when the header is not accepted. -/
def gzip.NewReader (std : Stdlib) (w : World) : Except Error Nat × World :=
  match std.gzipHeader w.source.1 w.source.2 with
  | (need, err) =>
    match Body.pull need [] (w.log Event.gzipNewReader) with
    | (b, w1) =>
      match err with
      | some e => (Except.error e, w1)
      | none =>
        (Except.ok w1.nextDecoder,
          { w1 with nextDecoder := w1.nextDecoder + 1,
                    bufs := (w1.nextDecoder, b.drop need) :: w1.bufs })

/-- `zlib.NewReader(resp.Body)`: a new decoder that reads the header through a new
`bufio.Reader` over the body, and nil with the error when the header is not accepted. -/
def zlib.NewReader (std : Stdlib) (w : World) : Except Error Nat × World :=
  match std.zlibHeader w.source.1 w.source.2 with
  | (need, err) =>
    match Body.pull need [] (w.log Event.zlibNewReader) with
    | (b, w1) =>
      match err with
      | some e => (Except.error e, w1)
      | none =>
        (Except.ok w1.nextDecoder,
          { w1 with nextDecoder := w1.nextDecoder + 1,
                    bufs := (w1.nextDecoder, b.drop need) :: w1.bufs })

/-- `gzipReaderSyncPool.Get()`: an idle decoder, or nil when there is none.  (That a
`sync.Pool` may drop idle items at any time is a change of `pool` between calls.) -/
def Pool.Get (w : World) : Option Nat × World :=
  match w.pool with
  | d :: rest => (some d, { w.log Event.poolGet with pool := rest })
  | [] => (none, w.log Event.poolGet)

/-- `gzipReaderSyncPool.Put(gzipReader)`. -/
def Pool.Put (d : Nat) (w : World) : World :=
  { w.log (Event.poolPut d) with pool := d :: w.pool }

/-! ## `response.go` -/

/-- `DecompressedReader`. -/
def Response.DecompressedReader (std : Stdlib) (resp : Response) (w : World) :
    Except Error Reader × World :=
  let enc := strings.ToLower std (strings.TrimSpace (resp.Header.Get (str "Content-Encoding")))
  if enc = str "gzip" then
    match gzip.NewReader std w with
    | (Except.error err, w1) => (Except.error err, w1)
    | (Except.ok d, w1) => (Except.ok (Reader.gzip d), w1)
  else if enc = str "deflate" then
    match zlib.NewReader std w with
    | (Except.error err, w1) => (Except.error err, w1)
    | (Except.ok d, w1) => (Except.ok (Reader.zlib d), w1)
  else
    (Except.ok Reader.body, w)

/-- `DecompressedContent`.  The result is the Go pair `(b, err)`, then the response with its
cache, then the state. -/
def Response.DecompressedContent (std : Stdlib) (resp : Response) (w : World) :
    (Option Bytes × Option Error) × Response × World :=
  match resp.content with
  | some c => ((some c, none), resp, w)
  | none =>
    match resp.DecompressedReader std w with
    | (Except.error err, w1) => ((none, some err), resp, w1)
    | (Except.ok reader, w1) =>
      -- `defer reader.Close()` runs after the read, on both exits
      match ioutil.ReadAll std reader w1 with
      | (_, some err, w2) => ((none, some err), resp, reader.Close w2)
      | (b, none, w2) => ((some b, none), { resp with content := some b }, reader.Close w2)

/-- `IsGzipped`. -/
def Response.IsGzipped (std : Stdlib) (resp : Response) : Bool :=
  let contentEncoding := resp.Header.Get (str "Content-Encoding")
  let contentEncoding := strings.TrimSpace (strings.ToLower std contentEncoding)
  decide (contentEncoding = str "gzip")

/-- `ReadAllRawBody`. -/
def Response.ReadAllRawBody (w : World) : (Bytes × Option Error) × World :=
  match Body.ReadAll w with
  | (b, err, w1) => ((b, err), Reader.Close Reader.body w1)

/-- `getGzipReader`, on `src = resp.Body`.  The closer is the Go closure. -/
def getGzipReader (std : Stdlib) (w : World) :
    Except Error (Reader × (World → World)) × World :=
  match Pool.Get w with
  | (some gzipReader, w1) =>
    match gzip.Reset std gzipReader w1 with
    | (some err, w2) => (Except.error err, w2)
    | (none, w2) =>
      (Except.ok (Reader.gzip gzipReader,
        fun v => Pool.Put gzipReader (Reader.Close (Reader.gzip gzipReader) v)), w2)
  | (none, w1) =>
    match gzip.NewReader std w1 with
    | (Except.error err, w2) => (Except.error err, w2)
    | (Except.ok gzipReader, w2) =>
      (Except.ok (Reader.gzip gzipReader,
        fun v => Pool.Put gzipReader (Reader.Close (Reader.gzip gzipReader) v)), w2)

/-- `DecompressedReaderFromPool`. -/
def Response.DecompressedReaderFromPool (std : Stdlib) (resp : Response) (w : World) :
    Except Error (Reader × (World → World)) × World :=
  let enc := strings.ToLower std (strings.TrimSpace (resp.Header.Get (str "Content-Encoding")))
  if enc = str "gzip" then
    match getGzipReader std w with
    | (Except.error err, w1) => (Except.error err, w1)
    | (Except.ok (reader, closer), w1) => (Except.ok (reader, closer), w1)
  else if enc = str "deflate" then
    match zlib.NewReader std w with
    | (Except.error err, w1) => (Except.error err, w1)
    | (Except.ok d, w1) => (Except.ok (Reader.zlib d, fun v => Reader.Close (Reader.zlib d) v), w1)
  else
    (Except.ok (Reader.body, fun v => Reader.Close Reader.body v), w)

/-- `Text`. -/
def Response.Text (std : Stdlib) (resp : Response) (w : World) :
    (Bytes × Option Error) × Response × World :=
  match resp.DecompressedContent std w with
  | ((b, err), resp1, w1) => ((b.getD [], err), resp1, w1)

/-- `OK`. -/
def Response.OK (resp : Response) : Bool := decide (resp.StatusCode < 400)

/-- `Ok`. -/
def Response.Ok (resp : Response) : Bool := resp.OK

/-- `Reason`. -/
def Response.Reason (resp : Response) : GoString := resp.Status

/-- `(*http.Response).Location`: `http.ErrNoLocation` without the header, else
`r.Request.URL.Parse(lv)`, that is `url.Parse` then `ResolveReference` on the request URL. -/
def Response.Location (std : Stdlib) (resp : Response) : Except Error URL :=
  let lv := resp.Header.Get (str "Location")
  if lv = [] then Except.error http.ErrNoLocation
  else
    match std.urlParse lv with
    | Except.error err => Except.error err
    | Except.ok ref => Except.ok (std.ResolveReference resp.RequestURL ref)

/-- `URL`. -/
def Response.URL (std : Stdlib) (resp : Response) : Except Error URL :=
  let u := resp.RequestURL
  if resp.StatusCode = http.StatusMovedPermanently ∨ resp.StatusCode = http.StatusFound
      ∨ resp.StatusCode = http.StatusSeeOther
      ∨ resp.StatusCode = http.StatusTemporaryRedirect then
    match resp.Location std with
    | Except.error err => Except.error err
    | Except.ok location => Except.ok (std.ResolveReference u location)
  else Except.ok u

/-! ## The specification's vocabulary -/

/-- The encodings of the specification's data model. -/
inductive Encoding where
  | identity
  | gzip
  | deflate
deriving DecidableEq, Repr

/-- The Encoding Resolver as the specification words it: trim whitespace, lowercase, match
against "gzip" and "deflate", anything else is identity. -/
def Encoding.resolve (std : Stdlib) (headerValue : GoString) : Encoding :=
  let v := strings.ToLower std (strings.TrimSpace headerValue)
  if v = str "gzip" then Encoding.gzip
  else if v = str "deflate" then Encoding.deflate
  else Encoding.identity

/-- The encoding a factory call acted on, read off the calls it made between two states: a
gzip decoder was asked for (from the pool, or built), a zlib decoder was built, or neither. -/
def Encoding.resolved (before after : World) : Encoding :=
  if before.trace.count Event.poolGet < after.trace.count Event.poolGet
      ∨ before.trace.count Event.gzipNewReader < after.trace.count Event.gzipNewReader then
    Encoding.gzip
  else if before.trace.count Event.zlibNewReader < after.trace.count Event.zlibNewReader then
    Encoding.deflate
  else Encoding.identity

/-- Number of times a decoder sits in `gzipReaderSyncPool`. -/
def World.pooled (w : World) (d : Nat) : Nat := w.pool.count d

/-! ## A concrete standard library and concrete responses -/

/-- `gzip.ErrHeader`. -/
def gzip.ErrHeader : Error := str "gzip: invalid header"
/-- `gzip.ErrChecksum`. -/
def gzip.ErrChecksum : Error := str "gzip: invalid checksum"
/-- `zlib.ErrHeader`. -/
def zlib.ErrHeader : Error := str "zlib: invalid header"
/-- `zlib.ErrChecksum`. -/
def zlib.ErrChecksum : Error := str "zlib: invalid checksum"
/-- `zlib.ErrDictionary`. -/
def zlib.ErrDictionary : Error := str "zlib: invalid dictionary"
/-- `flate.CorruptInputError`, by the offset it reports. -/
def flate.CorruptInputError (offset : Nat) : Error :=
  str "flate: corrupt input before offset " ++ str (toString offset)

/-- `crc32.Update` with the IEEE polynomial, one byte. -/
def crc32.update (crc b : Nat) : Nat :=
  (fun c => if c % 2 = 1 then (c / 2) ^^^ 0xEDB88320 else c / 2)^[8] (crc ^^^ (b % 256))

/-- `crc32.ChecksumIEEE`. -/
def crc32.ChecksumIEEE (bs : Bytes) : Nat :=
  (bs.foldl crc32.update 0xFFFFFFFF) ^^^ 0xFFFFFFFF

/-- `adler32.Checksum`. -/
def adler32.Checksum (bs : Bytes) : Nat :=
  match bs.foldl (fun s b => ((s.1 + b % 256) % 65521, (s.2 + (s.1 + b % 256) % 65521) % 65521))
      ((1 : Nat), (0 : Nat)) with
  | (lo, hi) => hi * 65536 + lo

/-- A little-endian number. -/
def leUint (bs : Bytes) : Nat := bs.foldr (fun b n => b % 256 + 256 * n) 0

/-- A big-endian number. -/
def beUint (bs : Bytes) : Nat := bs.foldl (fun n b => 256 * n + b % 256) 0

/-- DEFLATE on a stream of stored blocks, as `compress/flate` reads it: from the first byte
of a block the final flag and the type, then the length and its complement, then the data.
The bytes asked for so far, the bytes decoded, and the error, `none` at the end of the final
block.  A block with Huffman codes is outside this decoder and is reported as such. -/
def sampleFlate : Nat → Bytes → Option Error → Nat → Bytes → Nat × Bytes × Option Error
  | 0, _, _, n, out => (n, out, some (str "sampleStd: more blocks than bytes"))
  | fuel + 1, b, term, n, out =>
    match b with
    | [] => (n + 1, out, some (term.getD io.ErrUnexpectedEOF))
    | h :: rest =>
      if (h / 2) % 4 = 0 then
        if rest.length < 4 then (n + 5, out, some (term.getD io.ErrUnexpectedEOF))
        else if leUint ((rest.drop 2).take 2) ≠ 65535 - leUint (rest.take 2) then
          (n + 5, out, some (flate.CorruptInputError (n + 5)))
        else if (rest.drop 4).length < leUint (rest.take 2) then
          (n + 5 + leUint (rest.take 2), out ++ rest.drop 4,
            some (term.getD io.ErrUnexpectedEOF))
        else if h % 2 = 1 then
          (n + 5 + leUint (rest.take 2), out ++ (rest.drop 4).take (leUint (rest.take 2)), none)
        else
          sampleFlate fuel ((rest.drop 4).drop (leUint (rest.take 2))) term
            (n + 5 + leUint (rest.take 2)) (out ++ (rest.drop 4).take (leUint (rest.take 2)))
      else if (h / 2) % 4 = 3 then (n + 1, out, some (flate.CorruptInputError (n + 1)))
      else (n + 1, out, some (str "sampleStd: block with Huffman codes"))

/-- The `FEXTRA` field of a gzip header at `pos`: where it ends, or the bytes asked for and
the error. -/
def sampleGzipExtra (b : Bytes) (term : Option Error) (pos : Nat) : Except (Nat × Error) Nat :=
  if b.length < pos + 2 then Except.error (pos + 2, term.getD io.ErrUnexpectedEOF)
  else if b.length < pos + 2 + leUint ((b.drop pos).take 2) then
    Except.error (pos + 2 + leUint ((b.drop pos).take 2), term.getD io.ErrUnexpectedEOF)
  else Except.ok (pos + 2 + leUint ((b.drop pos).take 2))

/-- A zero-terminated string of a gzip header at `pos`, read into the 512 bytes of the
reader's buffer. -/
def sampleGzipString (b : Bytes) (term : Option Error) (pos : Nat) : Except (Nat × Error) Nat :=
  if ((b.drop pos).take 512).indexOf 0 < ((b.drop pos).take 512).length then
    Except.ok (pos + ((b.drop pos).take 512).indexOf 0 + 1)
  else if ((b.drop pos).take 512).length < 512 then
    Except.error (pos + ((b.drop pos).take 512).length + 1, term.getD io.ErrUnexpectedEOF)
  else Except.error (pos + 512, gzip.ErrHeader)

/-- The `FHCRC` field of a gzip header at `pos`: the low 16 bits of the CRC-32 of the header
so far. -/
def sampleGzipHcrc (b : Bytes) (term : Option Error) (pos : Nat) : Except (Nat × Error) Nat :=
  if b.length < pos + 2 then Except.error (pos + 2, term.getD io.ErrUnexpectedEOF)
  else if leUint ((b.drop pos).take 2) ≠ crc32.ChecksumIEEE (b.take pos) % 65536 then
    Except.error (pos + 2, gzip.ErrHeader)
  else Except.ok (pos + 2)

/-- `(*gzip.Reader).readHeader`: the ten fixed bytes with the magic number and the method,
then the optional fields the flags announce. -/
def sampleGzipHeader (b : Bytes) (term : Option Error) : Nat × Option Error :=
  if b.length < 10 then
    (10, some (if b = [] then term.getD io.EOF else term.getD io.ErrUnexpectedEOF))
  else if b.take 3 ≠ [0x1f, 0x8b, 8] then (10, some gzip.ErrHeader)
  else
    match (do
      let p1 ← if (b.getD 3 0 / 4) % 2 = 1 then sampleGzipExtra b term 10 else Except.ok 10
      let p2 ← if (b.getD 3 0 / 8) % 2 = 1 then sampleGzipString b term p1 else Except.ok p1
      let p3 ← if (b.getD 3 0 / 16) % 2 = 1 then sampleGzipString b term p2 else Except.ok p2
      if (b.getD 3 0 / 2) % 2 = 1 then sampleGzipHcrc b term p3 else Except.ok p3
      : Except (Nat × Error) Nat) with
    | Except.ok p => (p, none)
    | Except.error (p, e) => (p, some e)

/-- A gzip reader read to its end, member after member: the DEFLATE data, the trailer with
the CRC-32 and the size of the data, then the header of a next member or the end of the
source. -/
def sampleGzipMembers : Nat → Bytes → Option Error → Nat → Bytes → Nat × Bytes × Option Error
  | 0, _, _, n, out => (n, out, some (str "sampleStd: more members than bytes"))
  | fuel + 1, b, term, n, out =>
    match sampleFlate (b.length + 1) b term 0 [] with
    | (k, data, some e) => (n + k, out ++ data, some e)
    | (k, data, none) =>
      if (b.drop k).length < 8 then (n + k + 8, out ++ data, some (term.getD io.ErrUnexpectedEOF))
      else if leUint ((b.drop k).take 4) ≠ crc32.ChecksumIEEE data
          ∨ leUint ((b.drop (k + 4)).take 4) ≠ data.length % 4294967296 then
        (n + k + 8, out ++ data, some gzip.ErrChecksum)
      else
        match sampleGzipHeader (b.drop (k + 8)) term with
        | (h, some e) => (n + k + 8 + h, out ++ data, if e = io.EOF then none else some e)
        | (h, none) =>
          sampleGzipMembers fuel (b.drop (k + 8 + h)) term (n + k + 8 + h) (out ++ data)

/-- The header read of `zlib.NewReader`: method, window and check bits, and the checksum of
the preset dictionary, which is the empty one. -/
def sampleZlibHeader (b : Bytes) (term : Option Error) : Nat × Option Error :=
  if b.length < 2 then (2, some (term.getD io.ErrUnexpectedEOF))
  else if b.getD 0 0 % 16 ≠ 8 ∨ 7 < b.getD 0 0 / 16 ∨ (b.getD 0 0 * 256 + b.getD 1 0) % 31 ≠ 0 then
    (2, some zlib.ErrHeader)
  else if (b.getD 1 0 / 32) % 2 = 1 then
    if b.length < 6 then (6, some (term.getD io.ErrUnexpectedEOF))
    else if beUint ((b.drop 2).take 4) ≠ adler32.Checksum [] then (6, some zlib.ErrDictionary)
    else (6, none)
  else (2, none)

/-- A zlib reader read to its end: the DEFLATE data, then the Adler-32 of the data. -/
def sampleZlibInflate (b : Bytes) (term : Option Error) : Nat × Bytes × Option Error :=
  match sampleFlate (b.length + 1) b term 0 [] with
  | (k, data, some e) => (k, data, some e)
  | (k, data, none) =>
    if (b.drop k).length < 4 then (k + 4, data, some (term.getD io.ErrUnexpectedEOF))
    else if beUint ((b.drop k).take 4) ≠ adler32.Checksum data then (k + 4, data, some zlib.ErrChecksum)
    else (k + 4, data, none)

/-- The characters the sample URL parser takes: unreserved ones and the given others. -/
def sampleSafe (others : GoString) (c : Nat) : Bool :=
  decide ((0x41 ≤ c ∧ c ≤ 0x5A) ∨ (0x61 ≤ c ∧ c ≤ 0x7A) ∨ (0x30 ≤ c ∧ c ≤ 0x39)
    ∨ c = 0x2D ∨ c = 0x2E ∨ c = 0x5F ∨ c = 0x7E) || others.contains c

/-- `strings.Cut`: the string before and after the first occurrence of a byte. -/
def strings.Cut (s : GoString) (c : Nat) : GoString × GoString :=
  (s.takeWhile (fun x => x != c), (s.dropWhile (fun x => x != c)).drop 1)

/-- The error of the sample URL parser on what it does not take. -/
def sampleUnsupported : Error := str "sampleStd: reference outside the sample syntax"

/-- `url.Parse` on references of the shape `[scheme://host][/]path[?query][#fragment]` with
letters in the scheme, letters, digits, "." and "-" in the host, and unreserved characters
elsewhere; anything else is reported as outside the sample. -/
def sampleUrlParse (s : GoString) : Except Error URL :=
  let frag := (strings.Cut s 0x23).2
  let query := (strings.Cut (strings.Cut s 0x23).1 0x3F).2
  let rest := (strings.Cut (strings.Cut s 0x23).1 0x3F).1
  let scheme := if rest.contains 0x3A then (strings.Cut rest 0x3A).1 else []
  let after := if rest.contains 0x3A then (strings.Cut rest 0x3A).2 else rest
  let host := if after.take 2 = [0x2F, 0x2F] then (strings.Cut (after.drop 2) 0x2F).1 else []
  let path := if after.take 2 = [0x2F, 0x2F] then (after.drop 2).dropWhile (fun x => x != 0x2F)
    else after
  if (query = [] ∧ (strings.Cut s 0x23).1.contains 0x3F)
      ∨ (rest.contains 0x3A ∧ (scheme = [] ∨ after.take 2 ≠ [0x2F, 0x2F]))
      ∨ ¬ scheme.all (fun c => decide ((0x41 ≤ c ∧ c ≤ 0x5A) ∨ (0x61 ≤ c ∧ c ≤ 0x7A)))
      ∨ (scheme = [] ∧ after.take 3 = [0x2F, 0x2F, 0x2F])
      ∨ ¬ host.all (fun c => sampleSafe [] c && c != 0x5F && c != 0x7E)
      ∨ ¬ path.all (sampleSafe [0x2F])
      ∨ ¬ query.all (sampleSafe [0x2F, 0x3D, 0x26])
      ∨ ¬ frag.all (sampleSafe [0x2F]) then
    Except.error sampleUnsupported
  else
    Except.ok { Scheme := scheme.map (fun c => if 0x41 ≤ c ∧ c ≤ 0x5A then c + 32 else c),
                Host := host, Path := path, RawQuery := query, Fragment := frag }

/-- One element of the path in the loop of `resolvePath` of `net/url`: the path written so
far and whether nothing was written since the last "/" was dropped. -/
def sampleResolveStep (st : GoString × Bool) (elem : GoString) : GoString × Bool :=
  if elem = [0x2E] then (st.1, false)
  else if elem = [0x2E, 0x2E] then
    if (st.1.drop 1).contains 0x2F then
      (0x2F :: (((st.1.drop 1).reverse.dropWhile (fun x => x != 0x2F)).drop 1).reverse, st.2)
    else ([0x2F], true)
  else (st.1 ++ (if st.2 then [] else [0x2F]) ++ elem, false)

/-- `resolvePath` of `net/url`: the reference path put on the base path, with "." and ".."
elements removed. -/
def sampleResolvePath (base ref : GoString) : GoString :=
  let full := if ref = [] then base
    else if ref.head? ≠ some 0x2F then
      (base.reverse.dropWhile (fun x => x != 0x2F)).reverse ++ ref
    else ref
  if full = [] then []
  else
    let elems := full.splitOn 0x2F
    let dst := (elems.foldl sampleResolveStep ([0x2F], true)).1
      ++ (if elems.getLast? = some [0x2E] ∨ elems.getLast? = some [0x2E, 0x2E] then [0x2F]
          else [])
    if 1 < dst.length ∧ dst.getD 1 0 = 0x2F then dst.drop 1 else dst

/-- `(*url.URL).ResolveReference` on the fields of `URL`. -/
def sampleResolveReference (u ref : URL) : URL :=
  if ref.Scheme ≠ [] ∨ ref.Host ≠ [] then
    { ref with Scheme := if ref.Scheme = [] then u.Scheme else ref.Scheme,
               Path := sampleResolvePath ref.Path [] }
  else
    { Scheme := u.Scheme, Host := u.Host, Path := sampleResolvePath u.Path ref.Path,
      RawQuery := if ref.Path = [] ∧ ref.RawQuery = [] then u.RawQuery else ref.RawQuery,
      Fragment := if ref.Path = [] ∧ ref.RawQuery = [] ∧ ref.Fragment = [] then u.Fragment
        else ref.Fragment }

/-- A `Stdlib` on which the definitions evaluate: the case table on Latin-1 and U+0130, the
gzip and zlib readers on streams whose DEFLATE data is in stored blocks, and `net/url` on
references of the sample syntax. -/
def sampleStd : Stdlib where
  caseTable := fun r =>
    if r = 0x130 then 0x69
    else if 0xC0 ≤ r ∧ r ≤ 0xDE ∧ r ≠ 0xD7 then r + 32 else r
  gzipHeader := sampleGzipHeader
  gzipInflate := fun b term => sampleGzipMembers (b.length + 1) b term 0 []
  zlibHeader := sampleZlibHeader
  zlibInflate := sampleZlibInflate
  urlParse := sampleUrlParse
  ResolveReference := sampleResolveReference

/-- A response to a request for `http://host/old`. -/
def sampleResponse (status : Int) (header : Header) : Response :=
  { StatusCode := status, Status := [], Header := header,
    RequestURL := { Scheme := str "http", Host := str "host", Path := str "/old",
                    RawQuery := [], Fragment := [] },
    content := none }

/-- A fresh state whose body delivers the given pieces and then `io.EOF`. -/
def sampleWorld (chunks : List Bytes) : World :=
  { chunks := chunks, failure := none, bufs := [], nextDecoder := 0, pool := [], trace := [] }

/-- The gzip stream of "hi", its DEFLATE data in one stored block. -/
def sampleGzip : Bytes :=
  [0x1f, 0x8b, 8, 0, 0, 0, 0, 0, 4, 3, 1, 2, 0, 253, 255, 104, 105, 172, 42, 147, 216, 2, 0, 0, 0]

/-- The zlib stream of "hi", its DEFLATE data in one stored block. -/
def sampleZlib : Bytes := [0x78, 1, 1, 2, 0, 253, 255, 104, 105, 1, 59, 0, 210]

/-- Eleven bytes that are neither a gzip nor a zlib stream. -/
def samplePlain : Bytes := str "hello world"

/-- A fresh state whose body delivers the given pieces and then fails with "unexpected EOF". -/
def sampleBrokenWorld (chunks : List Bytes) : World :=
  { chunks := chunks, failure := some (str "unexpected EOF"), bufs := [], nextDecoder := 0,
    pool := [], trace := [] }

/-- The state after a call of the pooled factory followed by `n` invocations of the release
function it returned. -/
def releasedTimes (n : Nat) (r : Except Error (Reader × (World → World)) × World) : World :=
  match r with
  | (Except.ok (_, closer), w) => closer^[n] w
  | (Except.error _, w) => w

/-! ## Lemmas on strings -/

theorem IsSpace_ToLower (std : Stdlib)
    (hcase : ∀ r, 0x7F < r → unicode.IsSpace (std.caseTable r) = unicode.IsSpace r) (r : Nat) :
    unicode.IsSpace (unicode.ToLower std r) = unicode.IsSpace r := by
  unfold unicode.ToLower
  split
  · split
    · rename_i h1 h2
      have e1 : unicode.IsSpace (r + (0x61 - 0x41)) = false := by
        unfold unicode.IsSpace
        rw [if_pos (by omega)]
        simp only [decide_eq_false_iff_not]
        omega
      have e2 : unicode.IsSpace r = false := by
        unfold unicode.IsSpace
        rw [if_pos (by omega)]
        simp only [decide_eq_false_iff_not]
        omega
      rw [e1, e2]
    · rfl
  · exact hcase r (by omega)

theorem map_dropWhile_comm {α : Type} (f : α → α) (p : α → Bool) (hp : ∀ x, p (f x) = p x)
    (l : List α) : (l.dropWhile p).map f = (l.map f).dropWhile p := by
  induction l with
  | nil => rfl
  | cons a t ih =>
    simp only [List.map_cons, List.dropWhile_cons, hp]
    split
    · exact ih
    · simp

theorem map_rdropWhile_comm {α : Type} (f : α → α) (p : α → Bool) (hp : ∀ x, p (f x) = p x)
    (l : List α) : (l.rdropWhile p).map f = (l.map f).rdropWhile p := by
  unfold List.rdropWhile
  rw [List.map_reverse, map_dropWhile_comm f p hp, List.map_reverse]

theorem TrimSpace_ToLower_comm (std : Stdlib)
    (hcase : ∀ r, 0x7F < r → unicode.IsSpace (std.caseTable r) = unicode.IsSpace r)
    (h : GoString) :
    strings.TrimSpace (strings.ToLower std h) = strings.ToLower std (strings.TrimSpace h) := by
  unfold strings.TrimSpace strings.ToLower
  rw [map_rdropWhile_comm _ _ (IsSpace_ToLower std hcase),
    map_dropWhile_comm _ _ (IsSpace_ToLower std hcase)]

theorem sampleStd_caseTable (r : Nat) (h : 0x7F < r) :
    unicode.IsSpace (sampleStd.caseTable r) = unicode.IsSpace r := by
  simp only [sampleStd]
  split
  · subst_vars
    decide
  · split
    · rename_i h1 h2
      have e1 : unicode.IsSpace (r + 32) = false := by
        unfold unicode.IsSpace
        rw [if_pos (by omega)]
        simp only [decide_eq_false_iff_not]
        omega
      have e2 : unicode.IsSpace r = false := by
        unfold unicode.IsSpace
        rw [if_pos (by omega)]
        simp only [decide_eq_false_iff_not]
        omega
      rw [e1, e2]
    · rfl

/-! ## Lemmas on reading the body -/

theorem Body_fill_reads (need : Nat) (cs : List Bytes) :
    ∀ (b : Bytes) (k : Nat),
      Body.fill need cs b k
        = ((Body.fill need cs b 0).1, (Body.fill need cs b 0).2.1,
            k + (Body.fill need cs b 0).2.2) := by
  induction cs with
  | nil =>
    intro b k
    unfold Body.fill
    split <;> simp
  | cons c cs ih =>
    intro b k
    unfold Body.fill
    split
    · simp
    · rw [ih (b ++ c) (k + 1), ih (b ++ c) (0 + 1)]
      simp only [Prod.mk.injEq, true_and]
      omega

theorem Body_pull_enough (need : Nat) (b : Bytes) (w : World) (h : need ≤ b.length) :
    Body.pull need b w = (b, w) := by
  unfold Body.pull Body.take
  by_cases hc : 0 < w.closes Reader.body
  · simp [hc, h]
  · cases hw : w.chunks with
    | nil => simp [hc, h, Body.fill, ← hw]
    | cons c cs => simp [hc, h, Body.fill, ← hw]

/-- The closed form `Body.pull` is the loop of a buffered reader over `Body.Read`: while it
holds too few bytes it reads one piece more, and it stops when `Read` reports an error. -/
theorem Body_pull_step (need : Nat) (b : Bytes) (w : World) (h : b.length < need) :
    Body.pull need b w
      = match Body.Read w with
        | (c, none, w1) => Body.pull need (b ++ c) w1
        | (_, some _, w1) => (b, w1) := by
  have hn : ¬ need ≤ b.length := by omega
  cases w with
  | mk chunks failure bufs nextDecoder pool trace =>
    by_cases hc : 0 < (World.mk chunks failure bufs nextDecoder pool trace).closes Reader.body
    · simp [Body.pull, Body.take, Body.Read, hc, hn, World.log]
    · cases chunks with
      | nil => simp [Body.pull, Body.take, Body.Read, Body.fill, hc, hn, World.log]
      | cons c cs =>
        have hc1 : ¬ 0 < (World.mk cs failure bufs nextDecoder pool
            (trace ++ [Event.bodyRead])).closes Reader.body := by
          simp only [World.closes, List.count_append] at hc ⊢
          simpa using hc
        simp only [Body.pull, Body.take, Body.Read, hc, World.log, if_false, decide_False,
          Bool.false_eq_true]
        simp only [hc1, decide_False, Bool.false_eq_true, if_false]
        rw [Body.fill, if_neg hn, Body_fill_reads need cs (b ++ c) (0 + 1)]
        simp [List.replicate_add, List.append_assoc]

theorem Body_pull_trace (need : Nat) (b : Bytes) (w : World) :
    ∃ k, (Body.pull need b w).2.trace = w.trace ++ List.replicate k Event.bodyRead :=
  ⟨(Body.take need (decide (0 < w.closes Reader.body)) w.chunks b).2.2, rfl⟩

/-! ## Lemmas on the decoder constructors -/

theorem gzip_NewReader_trace (std : Stdlib) (w : World) :
    ∃ k, (gzip.NewReader std w).2.trace
      = w.trace ++ Event.gzipNewReader :: List.replicate k Event.bodyRead := by
  obtain ⟨k, hk⟩ := Body_pull_trace (std.gzipHeader w.source.1 w.source.2).1 []
    (w.log Event.gzipNewReader)
  refine ⟨k, ?_⟩
  have hk2 : (Body.pull (std.gzipHeader w.source.1 w.source.2).1 [] (w.log Event.gzipNewReader)).2.trace
      = w.trace ++ Event.gzipNewReader :: List.replicate k Event.bodyRead := by
    rw [hk]
    simp [World.log]
  unfold gzip.NewReader
  simp only
  split <;> exact hk2

theorem zlib_NewReader_trace (std : Stdlib) (w : World) :
    ∃ k, (zlib.NewReader std w).2.trace
      = w.trace ++ Event.zlibNewReader :: List.replicate k Event.bodyRead := by
  obtain ⟨k, hk⟩ := Body_pull_trace (std.zlibHeader w.source.1 w.source.2).1 []
    (w.log Event.zlibNewReader)
  refine ⟨k, ?_⟩
  have hk2 : (Body.pull (std.zlibHeader w.source.1 w.source.2).1 [] (w.log Event.zlibNewReader)).2.trace
      = w.trace ++ Event.zlibNewReader :: List.replicate k Event.bodyRead := by
    rw [hk]
    simp [World.log]
  unfold zlib.NewReader
  simp only
  split <;> exact hk2

theorem gzip_Reset_trace (std : Stdlib) (d : Nat) (w : World) :
    ∃ k, (gzip.Reset std d w).2.trace
      = w.trace ++ Event.gzipReset d :: List.replicate k Event.bodyRead := by
  obtain ⟨k, hk⟩ := Body_pull_trace (std.gzipHeader w.source.1 w.source.2).1 []
    (w.log (Event.gzipReset d))
  refine ⟨k, ?_⟩
  have hk2 : (Body.pull (std.gzipHeader w.source.1 w.source.2).1 [] (w.log (Event.gzipReset d))).2.trace
      = w.trace ++ Event.gzipReset d :: List.replicate k Event.bodyRead := by
    rw [hk]
    simp [World.log]
  unfold gzip.Reset
  exact hk2

theorem Pool_Get_trace (w : World) : (Pool.Get w).2.trace = w.trace ++ [Event.poolGet] := by
  unfold Pool.Get
  split <;> simp [World.log]

theorem getGzipReader_trace (std : Stdlib) (w : World) :
    ∃ e k, e ≠ Event.zlibNewReader ∧ (getGzipReader std w).2.trace
      = w.trace ++ Event.poolGet :: e :: List.replicate k Event.bodyRead := by
  unfold getGzipReader
  split
  · rename_i d w1 hget
    have h1 : w1.trace = w.trace ++ [Event.poolGet] := by
      have := Pool_Get_trace w
      rw [hget] at this
      exact this
    obtain ⟨k, h2⟩ := gzip_Reset_trace std d w1
    refine ⟨Event.gzipReset d, k, by simp, ?_⟩
    split <;> rename_i heq <;> rw [heq] at h2 <;> simp only at h2 ⊢ <;> rw [h2, h1] <;> simp
  · rename_i w1 hget
    have h1 : w1.trace = w.trace ++ [Event.poolGet] := by
      have := Pool_Get_trace w
      rw [hget] at this
      exact this
    obtain ⟨k, h2⟩ := gzip_NewReader_trace std w1
    refine ⟨Event.gzipNewReader, k, by simp, ?_⟩
    split <;> rename_i heq <;> rw [heq] at h2 <;> simp only at h2 ⊢ <;> rw [h2, h1] <;> simp

theorem DecompressedReader_trace (std : Stdlib) (resp : Response) (w : World) :
    ∃ k, (resp.DecompressedReader std w).2.trace = w.trace ++
      match Encoding.resolve std (resp.Header.Get (str "Content-Encoding")) with
      | Encoding.gzip => Event.gzipNewReader :: List.replicate k Event.bodyRead
      | Encoding.deflate => Event.zlibNewReader :: List.replicate k Event.bodyRead
      | Encoding.identity => [] := by
  unfold Response.DecompressedReader Encoding.resolve
  simp only
  split
  · obtain ⟨k, h⟩ := gzip_NewReader_trace std w
    refine ⟨k, ?_⟩
    split <;> rename_i heq <;> rw [heq] at h <;> exact h
  · split
    · obtain ⟨k, h⟩ := zlib_NewReader_trace std w
      refine ⟨k, ?_⟩
      split <;> rename_i heq <;> rw [heq] at h <;> exact h
    · exact ⟨0, by simp⟩

theorem DecompressedReaderFromPool_trace (std : Stdlib) (resp : Response) (w : World) :
    ∃ e k, e ≠ Event.zlibNewReader ∧ (resp.DecompressedReaderFromPool std w).2.trace = w.trace ++
      match Encoding.resolve std (resp.Header.Get (str "Content-Encoding")) with
      | Encoding.gzip => Event.poolGet :: e :: List.replicate k Event.bodyRead
      | Encoding.deflate => Event.zlibNewReader :: List.replicate k Event.bodyRead
      | Encoding.identity => [] := by
  unfold Response.DecompressedReaderFromPool Encoding.resolve
  simp only
  split
  · obtain ⟨e, k, he, h⟩ := getGzipReader_trace std w
    refine ⟨e, k, he, ?_⟩
    split <;> rename_i heq <;> rw [heq] at h <;> exact h
  · split
    · obtain ⟨k, h⟩ := zlib_NewReader_trace std w
      refine ⟨Event.poolGet, k, by simp, ?_⟩
      split <;> rename_i heq <;> rw [heq] at h <;> exact h
    · exact ⟨Event.poolGet, 0, by simp, by simp⟩

theorem count_replicate_bodyRead (e : Event) (k : Nat) (h : e ≠ Event.bodyRead) :
    List.count e (List.replicate k Event.bodyRead) = 0 := by
  rw [List.count_replicate]
  have : ¬ (Event.bodyRead = e) := fun x => h x.symm
  simp [this]

theorem resolved_DecompressedReader (std : Stdlib) (resp : Response) (w : World) :
    Encoding.resolved w (resp.DecompressedReader std w).2
      = Encoding.resolve std (resp.Header.Get (str "Content-Encoding")) := by
  obtain ⟨k, h⟩ := DecompressedReader_trace std resp w
  unfold Encoding.resolved
  rw [h]
  cases Encoding.resolve std (resp.Header.Get (str "Content-Encoding")) <;>
    simp [List.count_append, List.count_cons, count_replicate_bodyRead]

theorem resolved_DecompressedReaderFromPool (std : Stdlib) (resp : Response) (w : World) :
    Encoding.resolved w (resp.DecompressedReaderFromPool std w).2
      = Encoding.resolve std (resp.Header.Get (str "Content-Encoding")) := by
  obtain ⟨e, k, he, h⟩ := DecompressedReaderFromPool_trace std resp w
  unfold Encoding.resolved
  rw [h]
  cases Encoding.resolve std (resp.Header.Get (str "Content-Encoding")) <;>
    simp [List.count_append, List.count_cons, count_replicate_bodyRead]

theorem resolve_eq_gzip_iff (std : Stdlib) (h : GoString) :
    Encoding.resolve std h = Encoding.gzip
      ↔ strings.ToLower std (strings.TrimSpace h) = str "gzip" := by
  unfold Encoding.resolve
  simp only
  split
  · simp [*]
  · split
    · rename_i hg hd
      simp only [false_iff, reduceCtorEq]
      exact hg
    · simp [*]

theorem resolve_eq_deflate_iff (std : Stdlib) (h : GoString) :
    Encoding.resolve std h = Encoding.deflate
      ↔ strings.ToLower std (strings.TrimSpace h) = str "deflate" := by
  unfold Encoding.resolve
  simp only
  split
  · rename_i hg
    simp only [false_iff, reduceCtorEq]
    rw [hg]
    decide
  · split <;> simp [*]

/-! ## The claims on dispatch -/

/-- C3: `DecompressedReader` dispatches on the trimmed, lowercased `Content-Encoding` value:
for "gzip" it is `gzip.NewReader` on the body, for "deflate" it is `zlib.NewReader` on the
body, for anything else it returns the body itself with a nil error and does nothing; a gzip
(zlib) decoder is asked for exactly when the value is "gzip" ("deflate"); and "  GZIP  "
resolves to gzip while "br", "" and an absent header resolve to identity. -/
theorem DecompressedReader_dispatch (std : Stdlib) (resp : Response) (w : World) :
    (strings.ToLower std (strings.TrimSpace (resp.Header.Get (str "Content-Encoding")))
        = str "gzip" →
      resp.DecompressedReader std w
        = (Except.map Reader.gzip (gzip.NewReader std w).1, (gzip.NewReader std w).2))
    ∧ (strings.ToLower std (strings.TrimSpace (resp.Header.Get (str "Content-Encoding")))
        = str "deflate" →
      resp.DecompressedReader std w
        = (Except.map Reader.zlib (zlib.NewReader std w).1, (zlib.NewReader std w).2))
    ∧ (strings.ToLower std (strings.TrimSpace (resp.Header.Get (str "Content-Encoding")))
        ≠ str "gzip" →
      strings.ToLower std (strings.TrimSpace (resp.Header.Get (str "Content-Encoding")))
        ≠ str "deflate" →
      resp.DecompressedReader std w = (Except.ok Reader.body, w))
    ∧ (w.trace.count Event.gzipNewReader
          < (resp.DecompressedReader std w).2.trace.count Event.gzipNewReader
        ↔ strings.ToLower std (strings.TrimSpace (resp.Header.Get (str "Content-Encoding")))
            = str "gzip")
    ∧ (w.trace.count Event.zlibNewReader
          < (resp.DecompressedReader std w).2.trace.count Event.zlibNewReader
        ↔ strings.ToLower std (strings.TrimSpace (resp.Header.Get (str "Content-Encoding")))
            = str "deflate")
    ∧ Encoding.resolved w (resp.DecompressedReader std w).2
        = Encoding.resolve std (resp.Header.Get (str "Content-Encoding"))
    ∧ Encoding.resolved w
          ({ resp with Header := [(str "Content-Encoding", [str "  GZIP  "])] }.DecompressedReader
            std w).2 = Encoding.gzip
    ∧ { resp with Header := [(str "Content-Encoding", [str "br"])] }.DecompressedReader std w
        = (Except.ok Reader.body, w)
    ∧ { resp with Header := [(str "Content-Encoding", [str ""])] }.DecompressedReader std w
        = (Except.ok Reader.body, w)
    ∧ { resp with Header := [] }.DecompressedReader std w = (Except.ok Reader.body, w) := by
  refine ⟨?_, ?_, ?_, ?_, ?_, resolved_DecompressedReader std resp w, ?_, ?_, ?_, ?_⟩
  · intro hv
    unfold Response.DecompressedReader
    simp only [hv, if_true]
    split <;> rename_i heq <;> rw [heq] <;> rfl
  · intro hv
    have hg : ¬ (str "deflate" = str "gzip") := by decide
    unfold Response.DecompressedReader
    simp only [hv, hg, if_true, if_false]
    split <;> rename_i heq <;> rw [heq] <;> rfl
  · intro h1 h2
    unfold Response.DecompressedReader
    simp only [h1, h2, if_false]
  · obtain ⟨k, hk⟩ := DecompressedReader_trace std resp w
    rw [← resolve_eq_gzip_iff, hk]
    cases Encoding.resolve std (resp.Header.Get (str "Content-Encoding")) <;>
      simp [List.count_append, List.count_cons, count_replicate_bodyRead]
  · obtain ⟨k, hk⟩ := DecompressedReader_trace std resp w
    rw [← resolve_eq_deflate_iff, hk]
    cases Encoding.resolve std (resp.Header.Get (str "Content-Encoding")) <;>
      simp [List.count_append, List.count_cons, count_replicate_bodyRead]
  · rw [resolved_DecompressedReader]
    rfl
  · rfl
  · rfl
  · rfl

/-- C9: `OK` is true exactly when the status code is below 400, `Ok` returns what `OK`
returns, 200, 301 and 399 are ok, and 400, 404 and 500 are not. -/
theorem OK_iff_below_400 (resp : Response) :
    (resp.OK = true ↔ resp.StatusCode < 400)
    ∧ resp.Ok = resp.OK
    ∧ { resp with StatusCode := 200 }.OK = true
    ∧ { resp with StatusCode := 301 }.OK = true
    ∧ { resp with StatusCode := 399 }.OK = true
    ∧ { resp with StatusCode := 400 }.OK = false
    ∧ { resp with StatusCode := 404 }.OK = false
    ∧ { resp with StatusCode := 500 }.OK = false := by
  refine ⟨?_, rfl, ?_, ?_, ?_, ?_, ?_, ?_⟩ <;> simp [Response.OK]

/-- C10: for a case table that maps no rune above ASCII to or from white space (as the
Unicode one does), lowercasing then trimming and trimming then lowercasing give the same
string, so `IsGzipped` is true exactly when `DecompressedReader` and
`DecompressedReaderFromPool` take their gzip branch. -/
theorem IsGzipped_agrees (std : Stdlib)
    (hcase : ∀ r, 0x7F < r → unicode.IsSpace (std.caseTable r) = unicode.IsSpace r)
    (h : GoString) (resp : Response) (w : World) :
    (strings.TrimSpace (strings.ToLower std h) = str "gzip"
        ↔ strings.ToLower std (strings.TrimSpace h) = str "gzip")
    ∧ (resp.IsGzipped std = true
        ↔ w.trace.count Event.gzipNewReader
            < (resp.DecompressedReader std w).2.trace.count Event.gzipNewReader)
    ∧ (resp.IsGzipped std = true
        ↔ Encoding.resolved w (resp.DecompressedReader std w).2 = Encoding.gzip)
    ∧ (resp.IsGzipped std = true
        ↔ Encoding.resolved w (resp.DecompressedReaderFromPool std w).2 = Encoding.gzip) := by
  have key : resp.IsGzipped std = true
      ↔ Encoding.resolve std (resp.Header.Get (str "Content-Encoding")) = Encoding.gzip := by
    rw [resolve_eq_gzip_iff]
    unfold Response.IsGzipped
    simp only [decide_eq_true_eq]
    rw [TrimSpace_ToLower_comm std hcase]
  refine ⟨?_, ?_, ?_, ?_⟩
  · rw [TrimSpace_ToLower_comm std hcase]
  · obtain ⟨k, hk⟩ := DecompressedReader_trace std resp w
    rw [key, hk]
    cases Encoding.resolve std (resp.Header.Get (str "Content-Encoding")) <;>
      simp [List.count_append, List.count_cons, count_replicate_bodyRead]
  · rw [key, resolved_DecompressedReader]
  · rw [key, resolved_DecompressedReaderFromPool]


/-! ## Lemmas on `DecompressedContent` -/

theorem Body_ReadAll_trace (w : World) :
    ∃ k, (Body.ReadAll w).2.2.trace = w.trace ++ List.replicate k Event.bodyRead := by
  unfold Body.ReadAll
  split
  · exact ⟨1, rfl⟩
  · exact ⟨w.chunks.length + 1, rfl⟩

theorem Body_readLoop_chunks (cs : List Bytes) :
    ∀ (b : Bytes) (w : World), w.chunks = cs → ¬ 0 < w.closes Reader.body →
      Body.readLoop (cs.length + 1) b w
        = some (b ++ cs.flatten, if w.failure = some io.EOF then none else w.failure,
            { w with chunks := [],
                     trace := w.trace ++ List.replicate (cs.length + 1) Event.bodyRead }) := by
  induction cs with
  | nil =>
    intro b w hcs hcl
    cases w with
    | mk chunks failure bufs nextDecoder pool trace =>
      simp only at hcs
      subst hcs
      simp only [Body.readLoop, Body.Read, hcl, if_false, World.log]
      cases failure with
      | none => simp
      | some e => by_cases he : e = io.EOF <;> simp [he]
  | cons c cs ih =>
    intro b w hcs hcl
    cases w with
    | mk chunks failure bufs nextDecoder pool trace =>
      simp only at hcs
      subst hcs
      have hcl1 : ¬ 0 < (World.mk cs failure bufs nextDecoder pool
          (trace ++ [Event.bodyRead])).closes Reader.body := by
        simp only [World.closes, List.count_append] at hcl ⊢
        simpa using hcl
      have h := ih (b ++ c) (World.mk cs failure bufs nextDecoder pool
        (trace ++ [Event.bodyRead])) rfl hcl1
      rw [Body.readLoop]
      simp only [Body.Read, hcl, if_false, World.log, List.length_cons]
      rw [h]
      simp [List.replicate_succ, List.append_assoc]

/-- The closed form `Body.ReadAll` is the loop of `ioutil.ReadAll` over `Body.Read`, which
ends within one call more than there are pieces of data. -/
theorem Body_ReadAll_eq_readLoop (w : World) :
    Body.readLoop (w.chunks.length + 1) [] w = some (Body.ReadAll w) := by
  by_cases hcl : 0 < w.closes Reader.body
  · have hne : ¬ (http.errReadOnClosedResBody = io.EOF) := by decide
    simp [Body.readLoop, Body.ReadAll, Body.Read, hcl, hne]
  · rw [Body_readLoop_chunks w.chunks [] w rfl hcl]
    simp [Body.ReadAll, hcl]

theorem ioutil_ReadAll_trace (std : Stdlib) (r : Reader) (w : World) :
    ∃ k, (ioutil.ReadAll std r w).2.2.trace = w.trace ++ List.replicate k Event.bodyRead := by
  obtain ⟨k, hk⟩ := Body_ReadAll_trace w
  unfold ioutil.ReadAll
  cases r with
  | body => exact ⟨k, hk⟩
  | gzip d => exact Body_pull_trace _ _ _
  | zlib d => exact Body_pull_trace _ _ _

theorem ioutil_ReadAll_closes (std : Stdlib) (r : Reader) (w : World) (r0 : Reader) :
    (ioutil.ReadAll std r w).2.2.closes r0 = w.closes r0 := by
  obtain ⟨k, hk⟩ := ioutil_ReadAll_trace std r w
  unfold World.closes
  rw [hk]
  simp [List.count_append, List.count_replicate]

theorem DecompressedReader_closes (std : Stdlib) (resp : Response) (w : World) (r0 : Reader) :
    (resp.DecompressedReader std w).2.closes r0 = w.closes r0 := by
  obtain ⟨k, hk⟩ := DecompressedReader_trace std resp w
  unfold World.closes
  rw [hk]
  cases Encoding.resolve std (resp.Header.Get (str "Content-Encoding")) <;>
    simp [List.count_append, List.count_cons, count_replicate_bodyRead]

theorem Reader_Close_closes (r : Reader) (w : World) (r0 : Reader) :
    (r.Close w).closes r0 = w.closes r0 + if r0 = r then 1 else 0 := by
  unfold Reader.Close World.closes World.log
  by_cases h : r0 = r
  · subst h
    simp [List.count_append]
  · have h2 : ¬ (r = r0) := fun e => h e.symm
    simp [List.count_append, List.count_cons, h, h2]

theorem DecompressedContent_cached (std : Stdlib) (resp : Response) (w : World) (c : Bytes)
    (h : resp.content = some c) :
    resp.DecompressedContent std w = ((some c, none), resp, w) := by
  unfold Response.DecompressedContent
  rw [h]

theorem DecompressedContent_open_error (std : Stdlib) (resp : Response) (w w1 : World)
    (e : Error) (h : resp.content = none)
    (ho : resp.DecompressedReader std w = (Except.error e, w1)) :
    resp.DecompressedContent std w = ((none, some e), resp, w1) := by
  unfold Response.DecompressedContent
  rw [h]
  simp only [ho]

theorem DecompressedContent_read_error (std : Stdlib) (resp : Response) (w w1 : World)
    (reader : Reader) (e : Error) (h : resp.content = none)
    (ho : resp.DecompressedReader std w = (Except.ok reader, w1))
    (hr : (ioutil.ReadAll std reader w1).2.1 = some e) :
    resp.DecompressedContent std w
      = ((none, some e), resp, reader.Close (ioutil.ReadAll std reader w1).2.2) := by
  unfold Response.DecompressedContent
  rw [h]
  simp only [ho]
  split
  · rename_i heq
    rw [heq] at hr ⊢
    simp only [Option.some.injEq] at hr
    rw [hr]
  · rename_i heq
    rw [heq] at hr
    simp at hr

theorem DecompressedContent_read_ok (std : Stdlib) (resp : Response) (w w1 : World)
    (reader : Reader) (h : resp.content = none)
    (ho : resp.DecompressedReader std w = (Except.ok reader, w1))
    (hr : (ioutil.ReadAll std reader w1).2.1 = none) :
    resp.DecompressedContent std w
      = ((some (ioutil.ReadAll std reader w1).1, none),
          { resp with content := some (ioutil.ReadAll std reader w1).1 },
          reader.Close (ioutil.ReadAll std reader w1).2.2) := by
  unfold Response.DecompressedContent
  rw [h]
  simp only [ho]
  split
  · rename_i heq
    rw [heq] at hr
    simp at hr
  · rename_i heq
    rw [heq]

theorem DecompressedContent_opened_world (std : Stdlib) (resp : Response) (w w1 : World)
    (reader : Reader) (h : resp.content = none)
    (ho : resp.DecompressedReader std w = (Except.ok reader, w1)) :
    (resp.DecompressedContent std w).2.2 = reader.Close (ioutil.ReadAll std reader w1).2.2 := by
  cases hr : (ioutil.ReadAll std reader w1).2.1 with
  | none => rw [DecompressedContent_read_ok std resp w w1 reader h ho hr]
  | some e => rw [DecompressedContent_read_error std resp w w1 reader e h ho hr]

/-! ## The claims on `DecompressedContent` -/

/-- C1: when a call of `DecompressedContent` succeeds, it returned a slice that is not nil
(also when no byte was decoded) and the cache holds it; every later call, in whatever state,
returns the same bytes with a nil error and leaves the response and the state as they are,
so it reads nothing from the body and closes nothing. -/
theorem DecompressedContent_idempotent (std : Stdlib) (resp : Response) (w : World)
    (b : Option Bytes) (resp1 : Response) (w1 : World)
    (hcall : resp.DecompressedContent std w = ((b, none), resp1, w1)) :
    (∃ c, b = some c ∧ resp1.content = some c)
    ∧ (∀ w2, resp1.DecompressedContent std w2 = ((b, none), resp1, w2))
    ∧ (∀ w2, (resp1.DecompressedContent std w2).2.2.bodyReads = w2.bodyReads
        ∧ (resp1.DecompressedContent std w2).2.2.closes Reader.body = w2.closes Reader.body)
    ∧ (∀ n w2, (fun p : Response × World => (p.1.DecompressedContent std p.2).2)^[n] (resp1, w2)
        = (resp1, w2)) := by
  have hex : ∃ c, b = some c ∧ resp1.content = some c := by
    cases hc : resp.content with
    | some c =>
      rw [DecompressedContent_cached std resp w c hc] at hcall
      simp only [Prod.mk.injEq] at hcall
      obtain ⟨⟨hb, _⟩, hr, _⟩ := hcall
      exact ⟨c, hb.symm, by rw [← hr]; exact hc⟩
    | none =>
      cases ho : resp.DecompressedReader std w with
      | mk res w0 =>
        cases res with
        | error e =>
          rw [DecompressedContent_open_error std resp w w0 e hc ho] at hcall
          simp at hcall
        | ok reader =>
          cases hr : (ioutil.ReadAll std reader w0).2.1 with
          | some e =>
            rw [DecompressedContent_read_error std resp w w0 reader e hc ho hr] at hcall
            simp at hcall
          | none =>
            rw [DecompressedContent_read_ok std resp w w0 reader hc ho hr] at hcall
            simp only [Prod.mk.injEq] at hcall
            obtain ⟨⟨hb, _⟩, hr1, _⟩ := hcall
            exact ⟨_, hb.symm, by rw [← hr1]⟩
  obtain ⟨c, hb, hc1⟩ := hex
  have hlater : ∀ w2, resp1.DecompressedContent std w2 = ((b, none), resp1, w2) := by
    intro w2
    rw [DecompressedContent_cached std resp1 w2 c hc1, hb]
  refine ⟨⟨c, hb, hc1⟩, hlater, ?_, ?_⟩
  · intro w2
    rw [hlater w2]
    exact ⟨rfl, rfl⟩
  · intro n w2
    induction n with
    | zero => rfl
    | succ k ih =>
      rw [Function.iterate_succ_apply]
      simp only [hlater w2]
      exact ih

/-- C2: on a response whose cache is unpopulated, a failing open makes `DecompressedContent`
return nil bytes with the error of the open, a failing read makes it return nil bytes with
the error of the read, in both cases with the response (and its cache) as it was; and a
failure of `DecompressedContent` is always one of the two. -/
theorem DecompressedContent_failure (std : Stdlib) (resp : Response) (w : World)
    (hc : resp.content = none) :
    (∀ e w1, resp.DecompressedReader std w = (Except.error e, w1) →
        (resp.DecompressedContent std w).1 = (none, some e)
          ∧ (resp.DecompressedContent std w).2.1 = resp)
    ∧ (∀ reader w1 e, resp.DecompressedReader std w = (Except.ok reader, w1) →
        (ioutil.ReadAll std reader w1).2.1 = some e →
        (resp.DecompressedContent std w).1 = (none, some e)
          ∧ (resp.DecompressedContent std w).2.1 = resp)
    ∧ (∀ b e resp1 w1, resp.DecompressedContent std w = ((b, some e), resp1, w1) →
        b = none ∧ resp1 = resp ∧ resp1.content = none
          ∧ ((resp.DecompressedReader std w).1 = Except.error e
            ∨ ∃ reader w0, resp.DecompressedReader std w = (Except.ok reader, w0)
                ∧ (ioutil.ReadAll std reader w0).2.1 = some e)) := by
  refine ⟨?_, ?_, ?_⟩
  · intro e w1 ho
    rw [DecompressedContent_open_error std resp w w1 e hc ho]
    exact ⟨rfl, rfl⟩
  · intro reader w1 e ho hr
    rw [DecompressedContent_read_error std resp w w1 reader e hc ho hr]
    exact ⟨rfl, rfl⟩
  · intro b e resp1 w1 hcall
    cases ho : resp.DecompressedReader std w with
    | mk res w0 =>
      cases res with
      | error e0 =>
        rw [DecompressedContent_open_error std resp w w0 e0 hc ho] at hcall
        simp only [Prod.mk.injEq, Option.some.injEq] at hcall
        obtain ⟨⟨hb, he⟩, hr, _⟩ := hcall
        subst he
        exact ⟨hb.symm, hr.symm, by rw [← hr]; exact hc, Or.inl rfl⟩
      | ok reader =>
        cases hr : (ioutil.ReadAll std reader w0).2.1 with
        | some e0 =>
          rw [DecompressedContent_read_error std resp w w0 reader e0 hc ho hr] at hcall
          simp only [Prod.mk.injEq, Option.some.injEq] at hcall
          obtain ⟨⟨hb, he⟩, hr1, _⟩ := hcall
          subst he
          exact ⟨hb.symm, hr1.symm, by rw [← hr1]; exact hc, Or.inr ⟨reader, w0, rfl, hr⟩⟩
        | none =>
          rw [DecompressedContent_read_ok std resp w w0 reader hc ho hr] at hcall
          simp at hcall

/-- C4: with the cache unpopulated and the open successful, `DecompressedContent` invokes
`Close` on the decoded stream exactly once and on no other stream, whether the read succeeds
or fails; with the cache populated, or the open failing, it invokes `Close` on nothing. -/
theorem DecompressedContent_releases_once (std : Stdlib) (resp : Response) (w : World) :
    (∀ reader w1, resp.content = none →
        resp.DecompressedReader std w = (Except.ok reader, w1) →
        (resp.DecompressedContent std w).2.2.closes reader = w.closes reader + 1
          ∧ ∀ r, r ≠ reader → (resp.DecompressedContent std w).2.2.closes r = w.closes r)
    ∧ (∀ c, resp.content = some c →
        ∀ r, (resp.DecompressedContent std w).2.2.closes r = w.closes r)
    ∧ (∀ e w1, resp.content = none →
        resp.DecompressedReader std w = (Except.error e, w1) →
        ∀ r, (resp.DecompressedContent std w).2.2.closes r = w.closes r) := by
  refine ⟨?_, ?_, ?_⟩
  · intro reader w1 hc ho
    have hw1 : ∀ r, w1.closes r = w.closes r := by
      intro r
      have := DecompressedReader_closes std resp w r
      rw [ho] at this
      exact this
    rw [DecompressedContent_opened_world std resp w w1 reader hc ho]
    refine ⟨?_, ?_⟩
    · rw [Reader_Close_closes, ioutil_ReadAll_closes, hw1]
      simp
    · intro r hr
      rw [Reader_Close_closes, ioutil_ReadAll_closes, hw1]
      simp [hr]
  · intro c hc r
    rw [DecompressedContent_cached std resp w c hc]
  · intro e w1 hc ho r
    rw [DecompressedContent_open_error std resp w w1 e hc ho]
    have := DecompressedReader_closes std resp w r
    rw [ho] at this
    exact this

/-! ## Lemmas on the release functions -/

theorem getGzipReader_closer (std : Stdlib) (w w1 : World) (reader : Reader)
    (closer : World → World)
    (h : getGzipReader std w = (Except.ok (reader, closer), w1)) :
    ∃ d, reader = Reader.gzip d
      ∧ closer = fun v => Pool.Put d (Reader.Close (Reader.gzip d) v) := by
  unfold getGzipReader at h
  split at h
  · rename_i d w0 hget
    split at h
    · simp at h
    · simp only [Prod.mk.injEq, Except.ok.injEq] at h
      obtain ⟨⟨hr, hcl⟩, _⟩ := h
      exact ⟨d, hr.symm, hcl.symm⟩
  · split at h
    · simp at h
    · rename_i d w2 hnew
      simp only [Prod.mk.injEq, Except.ok.injEq] at h
      obtain ⟨⟨hr, hcl⟩, _⟩ := h
      exact ⟨d, hr.symm, hcl.symm⟩

theorem DecompressedReaderFromPool_closer (std : Stdlib) (resp : Response) (w w1 : World)
    (reader : Reader) (closer : World → World)
    (h : resp.DecompressedReaderFromPool std w = (Except.ok (reader, closer), w1)) :
    match Encoding.resolve std (resp.Header.Get (str "Content-Encoding")) with
    | Encoding.gzip => ∃ d, reader = Reader.gzip d
        ∧ closer = fun v => Pool.Put d (Reader.Close (Reader.gzip d) v)
    | Encoding.deflate => ∃ d, reader = Reader.zlib d
        ∧ closer = fun v => Reader.Close (Reader.zlib d) v
    | Encoding.identity => reader = Reader.body
        ∧ closer = fun v => Reader.Close Reader.body v := by
  unfold Response.DecompressedReaderFromPool at h
  unfold Encoding.resolve
  simp only at h ⊢
  split at h
  · rename_i hv
    simp only [hv, if_true]
    split at h
    · simp at h
    · rename_i r0 c0 w0 hg
      simp only [Prod.mk.injEq, Except.ok.injEq] at h
      obtain ⟨⟨hr, hcl⟩, hw⟩ := h
      subst hr hcl hw
      exact getGzipReader_closer std w w0 r0 c0 hg
  · rename_i hv
    simp only [hv, if_false]
    split at h
    · rename_i hd
      simp only [hd, if_true]
      split at h
      · simp at h
      · rename_i d w0 hz
        simp only [Prod.mk.injEq, Except.ok.injEq] at h
        obtain ⟨⟨hr, hcl⟩, _⟩ := h
        exact ⟨d, hr.symm, hcl.symm⟩
    · rename_i hd
      simp only [hd, if_false]
      simp only [Prod.mk.injEq, Except.ok.injEq] at h
      obtain ⟨⟨hr, hcl⟩, _⟩ := h
      exact ⟨hr.symm, hcl.symm⟩

theorem DecompressedReader_reader (std : Stdlib) (resp : Response) (w w1 : World)
    (reader : Reader) (h : resp.DecompressedReader std w = (Except.ok reader, w1)) :
    match Encoding.resolve std (resp.Header.Get (str "Content-Encoding")) with
    | Encoding.gzip => ∃ d, reader = Reader.gzip d
    | Encoding.deflate => ∃ d, reader = Reader.zlib d
    | Encoding.identity => reader = Reader.body := by
  unfold Response.DecompressedReader at h
  unfold Encoding.resolve
  simp only at h ⊢
  split at h
  · rename_i hv
    simp only [hv, if_true]
    split at h
    · simp at h
    · rename_i d w0 hz
      simp only [Prod.mk.injEq, Except.ok.injEq] at h
      exact ⟨d, h.1.symm⟩
  · rename_i hv
    simp only [hv, if_false]
    split at h
    · rename_i hd
      simp only [hd, if_true]
      split at h
      · simp at h
      · rename_i d w0 hz
        simp only [Prod.mk.injEq, Except.ok.injEq] at h
        exact ⟨d, h.1.symm⟩
    · rename_i hd
      simp only [hd, if_false]
      simp only [Prod.mk.injEq, Except.ok.injEq] at h
      exact h.1.symm

theorem Pool_Put_closes (d : Nat) (w : World) (r : Reader) :
    (Pool.Put d w).closes r = w.closes r := by
  unfold Pool.Put World.closes World.log
  simp [List.count_append, List.count_cons]

theorem pooled_release_step (d : Nat) (v : World) :
    (Pool.Put d (Reader.Close (Reader.gzip d) v)).pooled d = v.pooled d + 1
    ∧ (Pool.Put d (Reader.Close (Reader.gzip d) v)).closes (Reader.gzip d)
        = v.closes (Reader.gzip d) + 1
    ∧ (Pool.Put d (Reader.Close (Reader.gzip d) v)).closes Reader.body
        = v.closes Reader.body := by
  refine ⟨?_, ?_, ?_⟩
  · unfold Pool.Put World.pooled Reader.Close World.log
    simp
  · rw [Pool_Put_closes, Reader_Close_closes]
    simp
  · rw [Pool_Put_closes, Reader_Close_closes]
    simp

theorem pooled_release_iterate (d : Nat) (n : Nat) (v : World) :
    ((fun u => Pool.Put d (Reader.Close (Reader.gzip d) u))^[n] v).pooled d = v.pooled d + n
    ∧ ((fun u => Pool.Put d (Reader.Close (Reader.gzip d) u))^[n] v).closes (Reader.gzip d)
        = v.closes (Reader.gzip d) + n
    ∧ ((fun u => Pool.Put d (Reader.Close (Reader.gzip d) u))^[n] v).closes Reader.body
        = v.closes Reader.body := by
  induction n generalizing v with
  | zero => exact ⟨rfl, rfl, rfl⟩
  | succ k ih =>
    rw [Function.iterate_succ_apply]
    obtain ⟨h1, h2, h3⟩ := ih (Pool.Put d (Reader.Close (Reader.gzip d) v))
    obtain ⟨s1, s2, s3⟩ := pooled_release_step d v
    rw [h1, h2, h3, s1, s2, s3]
    refine ⟨?_, ?_, rfl⟩ <;> omega

/-! ## The claims on release and on `URL` -/

/-- C5 as the code has it: the release function of the pooled factory has no guard.  Every
invocation closes the decoder and puts it into the pool, so `n` invocations put it there `n`
times. -/
theorem pooled_closer_puts_each_time (std : Stdlib) (w : World) :
    (∀ reader closer w1, getGzipReader std w = (Except.ok (reader, closer), w1) →
        ∃ d, reader = Reader.gzip d
          ∧ ∀ n v, (closer^[n] v).pooled d = v.pooled d + n
              ∧ (closer^[n] v).closes (Reader.gzip d) = v.closes (Reader.gzip d) + n)
    ∧ (∀ (resp : Response) reader closer w1,
        Encoding.resolve std (resp.Header.Get (str "Content-Encoding")) = Encoding.gzip →
        resp.DecompressedReaderFromPool std w = (Except.ok (reader, closer), w1) →
        ∃ d, reader = Reader.gzip d
          ∧ ∀ n v, (closer^[n] v).pooled d = v.pooled d + n
              ∧ (closer^[n] v).closes (Reader.gzip d) = v.closes (Reader.gzip d) + n) := by
  refine ⟨?_, ?_⟩
  · intro reader closer w1 h
    obtain ⟨d, hr, hcl⟩ := getGzipReader_closer std w w1 reader closer h
    subst hcl
    refine ⟨d, hr, ?_⟩
    intro n v
    exact ⟨(pooled_release_iterate d n v).1, (pooled_release_iterate d n v).2.1⟩
  · intro resp reader closer w1 hg h
    have hc := DecompressedReaderFromPool_closer std resp w w1 reader closer h
    rw [hg] at hc
    obtain ⟨d, hr, hcl⟩ := hc
    subst hcl
    refine ⟨d, hr, ?_⟩
    intro n v
    exact ⟨(pooled_release_iterate d n v).1, (pooled_release_iterate d n v).2.1⟩

/-- C8: with a status other than 301, 302, 303 and 307, `URL` returns the request URL with a
nil error, whatever the headers hold.  With one of the four it returns the error of
`Location` (`http.ErrNoLocation` without the header, the parser's error on a header that does
not parse), and otherwise resolves against the request URL the URL `Location` returns, which
is the header parsed and resolved against the request URL; where resolving is idempotent that
is the header resolved against the request URL.  302 with "/new-path" against
"http://host/old" gives "http://host/new-path" for a library that resolves so. -/
theorem URL_effective (std : Stdlib) (resp : Response) :
    (resp.StatusCode ≠ 301 → resp.StatusCode ≠ 302 → resp.StatusCode ≠ 303 →
        resp.StatusCode ≠ 307 → resp.URL std = Except.ok resp.RequestURL)
    ∧ (resp.StatusCode = 301 ∨ resp.StatusCode = 302 ∨ resp.StatusCode = 303
          ∨ resp.StatusCode = 307 →
        (resp.Header.Get (str "Location") = [] →
            resp.URL std = Except.error http.ErrNoLocation)
        ∧ (∀ e, resp.Header.Get (str "Location") ≠ [] →
            std.urlParse (resp.Header.Get (str "Location")) = Except.error e →
            resp.URL std = Except.error e)
        ∧ (∀ ref, resp.Header.Get (str "Location") ≠ [] →
            std.urlParse (resp.Header.Get (str "Location")) = Except.ok ref →
            resp.URL std = Except.ok (std.ResolveReference resp.RequestURL
                (std.ResolveReference resp.RequestURL ref))
            ∧ (std.ResolveReference resp.RequestURL (std.ResolveReference resp.RequestURL ref)
                  = std.ResolveReference resp.RequestURL ref →
                resp.URL std = Except.ok (std.ResolveReference resp.RequestURL ref))))
    ∧ (∀ (old new ref : URL) s h k,
        std.urlParse (str "/new-path") = Except.ok ref →
        std.ResolveReference old ref = new →
        std.ResolveReference old new = new →
        Response.URL std
            { StatusCode := 302, Status := s, RequestURL := old, content := k,
              Header := (str "Location", [str "/new-path"]) :: h }
          = Except.ok new)
    ∧ (∀ (old : URL) s h k,
        Response.URL std
            { StatusCode := 200, Status := s, Header := h, RequestURL := old, content := k }
          = Except.ok old) := by
  refine ⟨?_, ?_, ?_, ?_⟩
  · intro h1 h2 h3 h4
    unfold Response.URL
    simp [http.StatusMovedPermanently, http.StatusFound, http.StatusSeeOther,
      http.StatusTemporaryRedirect, h1, h2, h3, h4]
  · intro hs
    have hs2 : resp.StatusCode = http.StatusMovedPermanently ∨ resp.StatusCode = http.StatusFound
        ∨ resp.StatusCode = http.StatusSeeOther
        ∨ resp.StatusCode = http.StatusTemporaryRedirect := hs
    refine ⟨?_, ?_, ?_⟩
    · intro hl
      unfold Response.URL Response.Location
      simp only [hs2, if_true, hl]
    · intro e hl hp
      unfold Response.URL Response.Location
      simp only [hs2, if_true, hl, if_false, hp]
    · intro ref hl hp
      have hu : resp.URL std = Except.ok (std.ResolveReference resp.RequestURL
          (std.ResolveReference resp.RequestURL ref)) := by
        unfold Response.URL Response.Location
        simp only [hs2, if_true, hl, if_false, hp]
      refine ⟨hu, ?_⟩
      intro hid
      rw [hu, hid]
  · intro old new ref s h k hp h1 h2
    have hl : Header.Get ((str "Location", [str "/new-path"]) :: h) (str "Location")
        = str "/new-path" := by
      simp [Header.Get, List.lookup]
    have hne : ¬ (str "/new-path" = []) := by decide
    unfold Response.URL Response.Location
    simp only [http.StatusMovedPermanently, http.StatusFound, http.StatusSeeOther,
      http.StatusTemporaryRedirect, hl, hne, if_false, hp, h1, h2]
    simp
  · intro old s h k
    unfold Response.URL
    simp [http.StatusMovedPermanently, http.StatusFound, http.StatusSeeOther,
      http.StatusTemporaryRedirect]


/-! ## Lemmas on what the two factories read -/

theorem log_closes_body (w : World) (e : Event) (h : e ≠ Event.close Reader.body) :
    (w.log e).closes Reader.body = w.closes Reader.body := by
  have hne : ¬ (e = Event.close Reader.body) := h
  simp [World.log, World.closes, List.count_append, List.count_cons, hne]

theorem Body_pull_log (need : Nat) (w : World) (e : Event) (h : e ≠ Event.close Reader.body) :
    (Body.pull need [] (w.log e)).2.chunks
        = (Body.take need (decide (0 < w.closes Reader.body)) w.chunks []).2.1
    ∧ (Body.pull need [] (w.log e)).2.trace
        = w.trace ++ e :: List.replicate
            (Body.take need (decide (0 < w.closes Reader.body)) w.chunks []).2.2 Event.bodyRead := by
  unfold Body.pull
  rw [log_closes_body w e h]
  simp [World.log]

theorem gzip_NewReader_facts (std : Stdlib) (w : World) :
    (∀ e, (gzip.NewReader std w).1 = Except.error e
        ↔ (std.gzipHeader w.source.1 w.source.2).2 = some e)
    ∧ ((gzip.NewReader std w).1 = Except.ok w.nextDecoder
        ↔ (std.gzipHeader w.source.1 w.source.2).2 = none)
    ∧ (gzip.NewReader std w).2.chunks
        = (Body.take (std.gzipHeader w.source.1 w.source.2).1
            (decide (0 < w.closes Reader.body)) w.chunks []).2.1
    ∧ (gzip.NewReader std w).2.trace
        = w.trace ++ Event.gzipNewReader :: List.replicate
            (Body.take (std.gzipHeader w.source.1 w.source.2).1
              (decide (0 < w.closes Reader.body)) w.chunks []).2.2 Event.bodyRead := by
  obtain ⟨h1, h2⟩ := Body_pull_log (std.gzipHeader w.source.1 w.source.2).1 w
    Event.gzipNewReader (by simp)
  unfold gzip.NewReader
  simp only
  cases hh : (std.gzipHeader w.source.1 w.source.2).2 with
  | none =>
    refine ⟨?_, ?_, h1, h2⟩
    · intro e
      simp
    · have hn : (Body.pull (std.gzipHeader w.source.1 w.source.2).1 []
          (w.log Event.gzipNewReader)).2.nextDecoder = w.nextDecoder := rfl
      simp [hn]
  | some e0 =>
    refine ⟨?_, ?_, h1, h2⟩
    · intro e
      simp
    · simp

theorem gzip_Reset_facts (std : Stdlib) (d : Nat) (w : World) :
    (gzip.Reset std d w).1 = (std.gzipHeader w.source.1 w.source.2).2
    ∧ (gzip.Reset std d w).2.chunks
        = (Body.take (std.gzipHeader w.source.1 w.source.2).1
            (decide (0 < w.closes Reader.body)) w.chunks []).2.1
    ∧ (gzip.Reset std d w).2.trace
        = w.trace ++ Event.gzipReset d :: List.replicate
            (Body.take (std.gzipHeader w.source.1 w.source.2).1
              (decide (0 < w.closes Reader.body)) w.chunks []).2.2 Event.bodyRead := by
  obtain ⟨h1, h2⟩ := Body_pull_log (std.gzipHeader w.source.1 w.source.2).1 w
    (Event.gzipReset d) (by simp)
  unfold gzip.Reset
  exact ⟨rfl, h1, h2⟩

theorem Pool_Get_body (w : World) :
    (Pool.Get w).2.chunks = w.chunks ∧ (Pool.Get w).2.source = w.source
    ∧ (Pool.Get w).2.closes Reader.body = w.closes Reader.body
    ∧ (Pool.Get w).2.trace = w.trace ++ [Event.poolGet] := by
  unfold Pool.Get
  split <;>
    simp [World.log, World.source, World.closes, List.count_append, List.count_cons]

theorem getGzipReader_facts (std : Stdlib) (w : World) :
    (∀ e, (getGzipReader std w).1 = Except.error e
        ↔ (std.gzipHeader w.source.1 w.source.2).2 = some e)
    ∧ (getGzipReader std w).2.chunks
        = (Body.take (std.gzipHeader w.source.1 w.source.2).1
            (decide (0 < w.closes Reader.body)) w.chunks []).2.1
    ∧ (getGzipReader std w).2.bodyReads
        = w.bodyReads + (Body.take (std.gzipHeader w.source.1 w.source.2).1
            (decide (0 < w.closes Reader.body)) w.chunks []).2.2 := by
  obtain ⟨g1, g2, g3, g4⟩ := Pool_Get_body w
  unfold getGzipReader
  split
  · rename_i d w1 hget
    rw [hget] at g1 g2 g3 g4
    simp only at g1 g2 g3 g4
    obtain ⟨r1, r2, r3⟩ := gzip_Reset_facts std d w1
    rw [g1, g2, g3] at r2 r3
    rw [g2] at r1
    split
    · rename_i err w2 hres
      rw [hres] at r1 r2 r3
      simp only at r1 r2 r3
      refine ⟨?_, r2, ?_⟩
      · intro e
        rw [← r1]
        simp
      · simp [World.bodyReads, r3, g4, List.count_append, List.count_cons, List.count_replicate]
    · rename_i w2 hres
      rw [hres] at r1 r2 r3
      simp only at r1 r2 r3
      refine ⟨?_, r2, ?_⟩
      · intro e
        rw [← r1]
        simp
      · simp [World.bodyReads, r3, g4, List.count_append, List.count_cons, List.count_replicate]
  · rename_i w1 hget
    rw [hget] at g1 g2 g3 g4
    simp only at g1 g2 g3 g4
    obtain ⟨n1, _, n3, n4⟩ := gzip_NewReader_facts std w1
    rw [g1, g2, g3] at n3 n4
    rw [g2] at n1
    split
    · rename_i err w2 hres
      rw [hres] at n1 n3 n4
      simp only at n1 n3 n4
      refine ⟨?_, n3, ?_⟩
      · intro e
        rw [← n1 e]
        simp
      · simp [World.bodyReads, n4, g4, List.count_append, List.count_cons, List.count_replicate]
    · rename_i d w2 hres
      rw [hres] at n1 n3 n4
      simp only at n1 n3 n4
      refine ⟨?_, n3, ?_⟩
      · intro e
        rw [← n1 e]
        simp
      · simp [World.bodyReads, n4, g4, List.count_append, List.count_cons, List.count_replicate]

/-! ## The claims on the two factories and on release -/

/-- C6: `DecompressedReader` and `DecompressedReaderFromPool` act on the same encoding, the
one resolved from the `Content-Encoding` header.  When that encoding is deflate or identity
they return the same reader, the same error and leave the same state, and the release
function is `Close` on that reader.  When it is gzip they fail together and with the same
error, on success both return a gzip decoder, they take the same pieces from the body in the
same number of reads, and the release function of the pooled one closes its decoder and puts
it into the pool. -/
theorem DecompressedReaderFromPool_agrees (std : Stdlib) (resp : Response) (w : World) :
    Encoding.resolved w (resp.DecompressedReaderFromPool std w).2
        = Encoding.resolved w (resp.DecompressedReader std w).2
    ∧ Encoding.resolved w (resp.DecompressedReader std w).2
        = Encoding.resolve std (resp.Header.Get (str "Content-Encoding"))
    ∧ (Encoding.resolve std (resp.Header.Get (str "Content-Encoding")) ≠ Encoding.gzip →
        Except.map Prod.fst (resp.DecompressedReaderFromPool std w).1
            = (resp.DecompressedReader std w).1
          ∧ (resp.DecompressedReaderFromPool std w).2 = (resp.DecompressedReader std w).2
          ∧ ∀ reader closer w1,
              resp.DecompressedReaderFromPool std w = (Except.ok (reader, closer), w1) →
              closer = fun v => reader.Close v)
    ∧ (Encoding.resolve std (resp.Header.Get (str "Content-Encoding")) = Encoding.gzip →
        (∀ e, (resp.DecompressedReaderFromPool std w).1 = Except.error e
            ↔ (resp.DecompressedReader std w).1 = Except.error e)
          ∧ (∀ reader closer w1,
              resp.DecompressedReaderFromPool std w = (Except.ok (reader, closer), w1) →
              ∃ d, reader = Reader.gzip d
                ∧ closer = fun v => Pool.Put d (Reader.Close (Reader.gzip d) v))
          ∧ (∀ reader w1, resp.DecompressedReader std w = (Except.ok reader, w1) →
              ∃ d, reader = Reader.gzip d)
          ∧ (resp.DecompressedReaderFromPool std w).2.chunks
              = (resp.DecompressedReader std w).2.chunks
          ∧ (resp.DecompressedReaderFromPool std w).2.bodyReads
              = (resp.DecompressedReader std w).2.bodyReads) := by
  refine ⟨?_, resolved_DecompressedReader std resp w, ?_, ?_⟩
  · rw [resolved_DecompressedReaderFromPool, resolved_DecompressedReader]
  · intro hne
    refine ⟨?_, ?_, ?_⟩
    · rw [Ne, resolve_eq_gzip_iff] at hne
      unfold Response.DecompressedReaderFromPool Response.DecompressedReader
      simp only [hne, if_false]
      split
      · split <;> rename_i heq <;> simp [heq, Except.map]
      · simp [Except.map]
    · rw [Ne, resolve_eq_gzip_iff] at hne
      unfold Response.DecompressedReaderFromPool Response.DecompressedReader
      simp only [hne, if_false]
      split
      · split <;> rename_i heq <;> simp [heq]
      · simp
    · intro reader closer w1 h
      have hk := DecompressedReaderFromPool_closer std resp w w1 reader closer h
      cases hres : Encoding.resolve std (resp.Header.Get (str "Content-Encoding")) <;>
        rw [hres] at hk <;> simp only at hk
      · rw [hk.1, hk.2]
      · exact absurd hres hne
      · obtain ⟨d, hr, hcl⟩ := hk
        rw [hr, hcl]
  · intro hg
    have hv := (resolve_eq_gzip_iff std (resp.Header.Get (str "Content-Encoding"))).mp hg
    obtain ⟨p1, p2, p3⟩ := getGzipReader_facts std w
    obtain ⟨n1, _, n3, n4⟩ := gzip_NewReader_facts std w
    have hpool : resp.DecompressedReaderFromPool std w = getGzipReader std w := by
      unfold Response.DecompressedReaderFromPool
      simp only [hv, if_true]
      split <;> rename_i heq <;> rw [heq]
    have hplain : resp.DecompressedReader std w
        = (Except.map Reader.gzip (gzip.NewReader std w).1, (gzip.NewReader std w).2) := by
      unfold Response.DecompressedReader
      simp only [hv, if_true]
      split <;> rename_i heq <;> rw [heq] <;> rfl
    have herr : ∀ e, (resp.DecompressedReader std w).1 = Except.error e
        ↔ (gzip.NewReader std w).1 = Except.error e := by
      intro e
      rw [hplain]
      cases (gzip.NewReader std w).1 <;> simp [Except.map]
    refine ⟨?_, ?_, ?_, ?_, ?_⟩
    · intro e
      rw [hpool, p1 e, herr e, n1 e]
    · intro reader closer w1 h
      have hk := DecompressedReaderFromPool_closer std resp w w1 reader closer h
      rw [hg] at hk
      exact hk
    · intro reader w1 h
      have hk := DecompressedReader_reader std resp w w1 reader h
      rw [hg] at hk
      exact hk
    · rw [hpool, hplain, p2, n3]
    · rw [hpool, hplain, p3]
      simp [World.bodyReads, n4, List.count_append, List.count_cons, List.count_replicate]

/-- C7 as the code has it: a release invokes `Close` on the decoded stream, once, and on
nothing else.  It therefore closes the raw body exactly when the encoding is identity, where
the decoded stream is the body itself; for gzip and for deflate it closes the decoder and
leaves the body open.  This holds for the release done by `DecompressedContent` and for the
release function of `DecompressedReaderFromPool`. -/
theorem release_closes_body_iff_identity (std : Stdlib) (resp : Response) (w : World) :
    (∀ reader w1, resp.content = none →
        resp.DecompressedReader std w = (Except.ok reader, w1) →
        (reader = Reader.body
            ↔ Encoding.resolve std (resp.Header.Get (str "Content-Encoding"))
                = Encoding.identity)
        ∧ (resp.DecompressedContent std w).2.2.closes reader = w.closes reader + 1
        ∧ (∀ r, r ≠ reader → (resp.DecompressedContent std w).2.2.closes r = w.closes r)
        ∧ (resp.DecompressedContent std w).2.2.closes Reader.body
            = w.closes Reader.body
              + if Encoding.resolve std (resp.Header.Get (str "Content-Encoding"))
                  = Encoding.identity then 1 else 0)
    ∧ (∀ reader closer w1,
        resp.DecompressedReaderFromPool std w = (Except.ok (reader, closer), w1) →
        (reader = Reader.body
            ↔ Encoding.resolve std (resp.Header.Get (str "Content-Encoding"))
                = Encoding.identity)
        ∧ ∀ v, (closer v).closes reader = v.closes reader + 1
            ∧ (∀ r, r ≠ reader → (closer v).closes r = v.closes r)
            ∧ (closer v).closes Reader.body
                = v.closes Reader.body
                  + if Encoding.resolve std (resp.Header.Get (str "Content-Encoding"))
                      = Encoding.identity then 1 else 0) := by
  refine ⟨?_, ?_⟩
  · intro reader w1 hc ho
    have hw1 : ∀ r, w1.closes r = w.closes r := by
      intro r
      have := DecompressedReader_closes std resp w r
      rw [ho] at this
      exact this
    have hk := DecompressedReader_reader std resp w w1 reader ho
    have hall : ∀ r, (resp.DecompressedContent std w).2.2.closes r
        = w.closes r + if r = reader then 1 else 0 := by
      intro r
      rw [DecompressedContent_opened_world std resp w w1 reader hc ho, Reader_Close_closes,
        ioutil_ReadAll_closes, hw1]
    have hiff : reader = Reader.body
        ↔ Encoding.resolve std (resp.Header.Get (str "Content-Encoding"))
            = Encoding.identity := by
      cases hres : Encoding.resolve std (resp.Header.Get (str "Content-Encoding")) <;>
        rw [hres] at hk <;> simp only at hk
      · simp [hk]
      · obtain ⟨d, hd⟩ := hk
        simp [hd]
      · obtain ⟨d, hd⟩ := hk
        simp [hd]
    refine ⟨hiff, ?_, ?_, ?_⟩
    · rw [hall]
      simp
    · intro r hr
      rw [hall]
      simp [hr]
    · rw [hall]
      by_cases hb : Reader.body = reader
      · have := hiff.mp hb.symm
        simp [hb, this]
      · have : ¬ Encoding.resolve std (resp.Header.Get (str "Content-Encoding"))
            = Encoding.identity := fun h => hb (hiff.mpr h).symm
        simp [hb, this]
  · intro reader closer w1 h
    have hk := DecompressedReaderFromPool_closer std resp w w1 reader closer h
    cases hres : Encoding.resolve std (resp.Header.Get (str "Content-Encoding")) <;>
      rw [hres] at hk <;> simp only at hk
    · obtain ⟨hr, hcl⟩ := hk
      subst hr hcl
      refine ⟨by simp, ?_⟩
      intro v
      refine ⟨?_, ?_, ?_⟩
      · simp [Reader_Close_closes]
      · intro r hr
        simp [Reader_Close_closes, hr]
      · simp [Reader_Close_closes]
    · obtain ⟨d, hr, hcl⟩ := hk
      subst hr hcl
      refine ⟨by simp, ?_⟩
      intro v
      refine ⟨?_, ?_, ?_⟩
      · simp [Pool_Put_closes, Reader_Close_closes]
      · intro r hr
        simp [Pool_Put_closes, Reader_Close_closes, hr]
      · simp [Pool_Put_closes, Reader_Close_closes]
    · obtain ⟨d, hr, hcl⟩ := hk
      subst hr hcl
      refine ⟨by simp, ?_⟩
      intro v
      refine ⟨?_, ?_, ?_⟩
      · simp [Reader_Close_closes]
      · intro r hr
        simp [Reader_Close_closes, hr]
      · simp [Reader_Close_closes]

/-! ## The claims at concrete responses -/

/-- C1, at a response without `Content-Encoding` whose body is empty: the first call returns
the empty slice, the second returns it again from a state it does not change. -/
theorem DecompressedContent_idempotent_witness :
    (sampleResponse 200 []).DecompressedContent sampleStd (sampleWorld [])
        = ((some [], none), { sampleResponse 200 [] with content := some [] },
            (Reader.body.Close (Body.ReadAll (sampleWorld [])).2.2))
    ∧ ∀ w2, { sampleResponse 200 [] with content := some [] }.DecompressedContent sampleStd w2
        = ((some [], none), { sampleResponse 200 [] with content := some [] }, w2) :=
  ⟨by decide,
    (DecompressedContent_idempotent sampleStd (sampleResponse 200 []) (sampleWorld [])
      (some []) { sampleResponse 200 [] with content := some [] }
      (Reader.body.Close (Body.ReadAll (sampleWorld [])).2.2) (by decide)).2.1⟩

/-- C2, at bytes that are not gzip under `Content-Encoding: gzip` (the open fails with
`gzip.ErrHeader`), at a gzip stream that stops inside its trailer (the read fails) and at a
body that breaks off (the read fails with the body's error). -/
theorem DecompressedContent_failure_witness :
    ((sampleResponse 200 [(str "Content-Encoding", [str "gzip"])]).DecompressedContent
        sampleStd (sampleWorld [samplePlain])).1 = (none, some gzip.ErrHeader)
    ∧ ((sampleResponse 200 [(str "Content-Encoding", [str "gzip"])]).DecompressedContent
        sampleStd (sampleWorld [samplePlain])).2.1
          = sampleResponse 200 [(str "Content-Encoding", [str "gzip"])]
    ∧ ((sampleResponse 200 [(str "Content-Encoding", [str "gzip"])]).DecompressedContent
        sampleStd (sampleWorld [sampleGzip.take 20])).1 = (none, some io.ErrUnexpectedEOF)
    ∧ ((sampleResponse 200 []).DecompressedContent sampleStd (sampleBrokenWorld [[1, 2]])).1
        = (none, some (str "unexpected EOF"))
    ∧ ((sampleResponse 200 []).DecompressedContent sampleStd (sampleBrokenWorld [[1, 2]])).2.1
        = sampleResponse 200 [] :=
  ⟨((DecompressedContent_failure sampleStd
      (sampleResponse 200 [(str "Content-Encoding", [str "gzip"])]) (sampleWorld [samplePlain])
      rfl).1 gzip.ErrHeader
      (gzip.NewReader sampleStd (sampleWorld [samplePlain])).2 rfl).1,
   ((DecompressedContent_failure sampleStd
      (sampleResponse 200 [(str "Content-Encoding", [str "gzip"])]) (sampleWorld [samplePlain])
      rfl).1 gzip.ErrHeader
      (gzip.NewReader sampleStd (sampleWorld [samplePlain])).2 rfl).2,
   ((DecompressedContent_failure sampleStd
      (sampleResponse 200 [(str "Content-Encoding", [str "gzip"])])
      (sampleWorld [sampleGzip.take 20]) rfl).2.1 (Reader.gzip 0)
      (gzip.NewReader sampleStd (sampleWorld [sampleGzip.take 20])).2 io.ErrUnexpectedEOF
      rfl (by decide)).1,
   ((DecompressedContent_failure sampleStd (sampleResponse 200 [])
      (sampleBrokenWorld [[1, 2]]) rfl).2.1 Reader.body (sampleBrokenWorld [[1, 2]])
      (str "unexpected EOF") rfl (by decide)).1,
   ((DecompressedContent_failure sampleStd (sampleResponse 200 [])
      (sampleBrokenWorld [[1, 2]]) rfl).2.1 Reader.body (sampleBrokenWorld [[1, 2]])
      (str "unexpected EOF") rfl (by decide)).2⟩

/-- C3, at the sample library: under "  GZIP  " a gzip stream opens as decoder 0 and bytes
that are not zlib under "deflate" fail in `zlib.NewReader` with `zlib.ErrHeader`; under "br"
the body comes back. -/
theorem DecompressedReader_dispatch_witness :
    (sampleResponse 200 [(str "Content-Encoding", [str "  GZIP  "])]).DecompressedReader
        sampleStd (sampleWorld [sampleGzip])
      = (Except.ok (Reader.gzip 0), (gzip.NewReader sampleStd (sampleWorld [sampleGzip])).2)
    ∧ (sampleResponse 200 [(str "Content-Encoding", [str "deflate"])]).DecompressedReader
        sampleStd (sampleWorld [[1, 2, 3]])
      = (Except.error zlib.ErrHeader,
          (zlib.NewReader sampleStd (sampleWorld [[1, 2, 3]])).2)
    ∧ (sampleResponse 200 [(str "Content-Encoding", [str "br"])]).DecompressedReader
        sampleStd (sampleWorld [[1, 2, 3]])
      = (Except.ok Reader.body, sampleWorld [[1, 2, 3]]) :=
  ⟨(DecompressedReader_dispatch sampleStd
      (sampleResponse 200 [(str "Content-Encoding", [str "  GZIP  "])])
      (sampleWorld [sampleGzip])).1 (by decide),
   (DecompressedReader_dispatch sampleStd
      (sampleResponse 200 [(str "Content-Encoding", [str "deflate"])])
      (sampleWorld [[1, 2, 3]])).2.1 (by decide),
   (DecompressedReader_dispatch sampleStd
      (sampleResponse 200 [(str "Content-Encoding", [str "br"])])
      (sampleWorld [[1, 2, 3]])).2.2.1 (by decide) (by decide)⟩

/-- C4, at a gzip response that decodes and at a deflate response whose stream stops inside
its trailer, so that the read fails. -/
theorem DecompressedContent_releases_once_witness :
    ((sampleResponse 200 [(str "Content-Encoding", [str "gzip"])]).DecompressedContent
        sampleStd (sampleWorld [sampleGzip])).2.2.closes (Reader.gzip 0) = 0 + 1
    ∧ ((sampleResponse 200 [(str "Content-Encoding", [str "gzip"])]).DecompressedContent
        sampleStd (sampleWorld [sampleGzip])).1 = (some (str "hi"), none)
    ∧ ((sampleResponse 200 [(str "Content-Encoding", [str "deflate"])]).DecompressedContent
        sampleStd (sampleWorld [sampleZlib.take 10])).2.2.closes (Reader.zlib 0) = 0 + 1
    ∧ ((sampleResponse 200 [(str "Content-Encoding", [str "deflate"])]).DecompressedContent
        sampleStd (sampleWorld [sampleZlib.take 10])).1 = (none, some io.ErrUnexpectedEOF) :=
  ⟨((DecompressedContent_releases_once sampleStd
      (sampleResponse 200 [(str "Content-Encoding", [str "gzip"])]) (sampleWorld [sampleGzip])).1
      (Reader.gzip 0) (gzip.NewReader sampleStd (sampleWorld [sampleGzip])).2 rfl
      rfl).1,
   by decide,
   ((DecompressedContent_releases_once sampleStd
      (sampleResponse 200 [(str "Content-Encoding", [str "deflate"])])
      (sampleWorld [sampleZlib.take 10])).1
      (Reader.zlib 0) (zlib.NewReader sampleStd (sampleWorld [sampleZlib.take 10])).2 rfl
      rfl).1,
   by decide⟩

/-- C5, at a gzip response and an empty pool: the factory builds decoder 0, and releasing it
three times leaves it in the pool three times. -/
theorem pooled_closer_puts_each_time_witness :
    (releasedTimes 3 ((sampleResponse 200
        [(str "Content-Encoding", [str "gzip"])]).DecompressedReaderFromPool sampleStd
          (sampleWorld [sampleGzip]))).pooled 0 = 0 + 3 := by
  obtain ⟨d, hd, hn⟩ := (pooled_closer_puts_each_time sampleStd (sampleWorld [sampleGzip])).2
    (sampleResponse 200 [(str "Content-Encoding", [str "gzip"])]) (Reader.gzip 0)
    (fun v => Pool.Put 0 (Reader.Close (Reader.gzip 0) v))
    (gzip.NewReader sampleStd (Pool.Get (sampleWorld [sampleGzip])).2).2 (by decide) rfl
  cases hd
  exact (hn 3 _).1

/-- C5 fails as stated: released twice, the decoder of a gzip response sits in the pool
twice. -/
theorem pooled_closer_double_release :
    Encoding.resolve sampleStd (str "gzip") = Encoding.gzip
    ∧ (releasedTimes 2 ((sampleResponse 200
        [(str "Content-Encoding", [str "gzip"])]).DecompressedReaderFromPool sampleStd
          (sampleWorld [sampleGzip]))).pool = [0, 0]
    ∧ ¬ (releasedTimes 2 ((sampleResponse 200
        [(str "Content-Encoding", [str "gzip"])]).DecompressedReaderFromPool sampleStd
          (sampleWorld [sampleGzip]))).pooled 0 = 1 := by
  decide

/-- C6, at a response without the header, at a deflate response, and at a gzip response,
where both factories return decoder 0 and on bytes that are not gzip both fail with
`gzip.ErrHeader`. -/
theorem DecompressedReaderFromPool_agrees_witness :
    (Except.map Prod.fst
        ((sampleResponse 200 []).DecompressedReaderFromPool sampleStd (sampleWorld [[1]])).1
          = ((sampleResponse 200 []).DecompressedReader sampleStd (sampleWorld [[1]])).1
      ∧ ((sampleResponse 200 []).DecompressedReaderFromPool sampleStd (sampleWorld [[1]])).2
          = ((sampleResponse 200 []).DecompressedReader sampleStd (sampleWorld [[1]])).2)
    ∧ Except.map Prod.fst
        ((sampleResponse 200 [(str "Content-Encoding", [str "deflate"])]).DecompressedReaderFromPool
          sampleStd (sampleWorld [sampleZlib])).1 = Except.ok (Reader.zlib 0)
    ∧ ((sampleResponse 200 [(str "Content-Encoding", [str "deflate"])]).DecompressedReader
          sampleStd (sampleWorld [sampleZlib])).1 = Except.ok (Reader.zlib 0)
    ∧ Except.map Prod.fst
        ((sampleResponse 200 [(str "Content-Encoding", [str "gzip"])]).DecompressedReaderFromPool
          sampleStd (sampleWorld [sampleGzip])).1 = Except.ok (Reader.gzip 0)
    ∧ ((sampleResponse 200 [(str "Content-Encoding", [str "gzip"])]).DecompressedReader
          sampleStd (sampleWorld [sampleGzip])).1 = Except.ok (Reader.gzip 0)
    ∧ ((sampleResponse 200 [(str "Content-Encoding", [str "gzip"])]).DecompressedReader
          sampleStd (sampleWorld [samplePlain])).1 = Except.error gzip.ErrHeader :=
  ⟨⟨((DecompressedReaderFromPool_agrees sampleStd (sampleResponse 200 [])
        (sampleWorld [[1]])).2.2.1 (by decide)).1,
     ((DecompressedReaderFromPool_agrees sampleStd (sampleResponse 200 [])
        (sampleWorld [[1]])).2.2.1 (by decide)).2.1⟩,
   rfl, rfl, rfl, rfl,
   (((DecompressedReaderFromPool_agrees sampleStd
      (sampleResponse 200 [(str "Content-Encoding", [str "gzip"])])
      (sampleWorld [samplePlain])).2.2.2 (by decide)).1 gzip.ErrHeader).mp rfl⟩

/-- C7, at a response without `Content-Encoding` (the body is closed once), at a deflate
response (the decoder is closed once and the body stays open) and at the release function of
a gzip response. -/
theorem release_closes_body_iff_identity_witness :
    ((sampleResponse 200 []).DecompressedContent sampleStd
        (sampleWorld [[104, 105]])).2.2.closes Reader.body = 0 + 1
    ∧ (((sampleResponse 200 [(str "Content-Encoding", [str "deflate"])]).DecompressedContent
          sampleStd (sampleWorld [sampleZlib])).2.2.closes (Reader.zlib 0) = 0 + 1
      ∧ ((sampleResponse 200 [(str "Content-Encoding", [str "deflate"])]).DecompressedContent
          sampleStd (sampleWorld [sampleZlib])).2.2.closes Reader.body = 0)
    ∧ ((releasedTimes 1 ((sampleResponse 200
          [(str "Content-Encoding", [str "gzip"])]).DecompressedReaderFromPool sampleStd
            (sampleWorld [sampleGzip]))).closes (Reader.gzip 0) = 0 + 1
      ∧ (releasedTimes 1 ((sampleResponse 200
          [(str "Content-Encoding", [str "gzip"])]).DecompressedReaderFromPool sampleStd
            (sampleWorld [sampleGzip]))).closes Reader.body = 0) :=
  ⟨((release_closes_body_iff_identity sampleStd (sampleResponse 200 [])
      (sampleWorld [[104, 105]])).1 Reader.body (sampleWorld [[104, 105]]) rfl rfl).2.1,
   ⟨((release_closes_body_iff_identity sampleStd
      (sampleResponse 200 [(str "Content-Encoding", [str "deflate"])])
      (sampleWorld [sampleZlib])).1 (Reader.zlib 0)
      (zlib.NewReader sampleStd (sampleWorld [sampleZlib])).2 rfl rfl).2.1,
    ((release_closes_body_iff_identity sampleStd
      (sampleResponse 200 [(str "Content-Encoding", [str "deflate"])])
      (sampleWorld [sampleZlib])).1 (Reader.zlib 0)
      (zlib.NewReader sampleStd (sampleWorld [sampleZlib])).2 rfl rfl).2.2.1
      Reader.body (by decide)⟩,
   ⟨(((release_closes_body_iff_identity sampleStd
      (sampleResponse 200 [(str "Content-Encoding", [str "gzip"])])
      (sampleWorld [sampleGzip])).2 (Reader.gzip 0)
      (fun v => Pool.Put 0 (Reader.Close (Reader.gzip 0) v))
      (gzip.NewReader sampleStd (Pool.Get (sampleWorld [sampleGzip])).2).2 rfl).2 _).1,
    (((release_closes_body_iff_identity sampleStd
      (sampleResponse 200 [(str "Content-Encoding", [str "gzip"])])
      (sampleWorld [sampleGzip])).2 (Reader.gzip 0)
      (fun v => Pool.Put 0 (Reader.Close (Reader.gzip 0) v))
      (gzip.NewReader sampleStd (Pool.Get (sampleWorld [sampleGzip])).2).2 rfl).2 _).2.1
      Reader.body (by decide)⟩⟩

/-- C7 fails as stated: on a gzip response `DecompressedContent` opens the decoder, closes
it once and never closes the body; the release function of the pooled factory does not close
the body either. -/
theorem gzip_release_leaves_body_open :
    Encoding.resolve sampleStd (str "gzip") = Encoding.gzip
    ∧ ((sampleResponse 200 [(str "Content-Encoding", [str "gzip"])]).DecompressedContent
        sampleStd (sampleWorld [sampleGzip])).1 = (some [104, 105], none)
    ∧ ((sampleResponse 200 [(str "Content-Encoding", [str "gzip"])]).DecompressedContent
        sampleStd (sampleWorld [sampleGzip])).2.2.closes (Reader.gzip 0) = 1
    ∧ ((sampleResponse 200 [(str "Content-Encoding", [str "gzip"])]).DecompressedContent
        sampleStd (sampleWorld [sampleGzip])).2.2.closes Reader.body = 0
    ∧ (releasedTimes 1 ((sampleResponse 200
        [(str "Content-Encoding", [str "gzip"])]).DecompressedReaderFromPool sampleStd
          (sampleWorld [sampleGzip]))).closes (Reader.gzip 0) = 1
    ∧ (releasedTimes 1 ((sampleResponse 200
        [(str "Content-Encoding", [str "gzip"])]).DecompressedReaderFromPool sampleStd
          (sampleWorld [sampleGzip]))).closes Reader.body = 0 := by
  decide

/-- C8, at the sample library: 302 with `Location: /new-path` against `http://host/old` is
`http://host/new-path`, 302 without `Location` is `http.ErrNoLocation`, and 200 is
`http://host/old`. -/
theorem URL_effective_witness :
    (sampleResponse 302 [(str "Location", [str "/new-path"])]).URL sampleStd
        = Except.ok { Scheme := str "http", Host := str "host", Path := str "/new-path",
                      RawQuery := [], Fragment := [] }
    ∧ (sampleResponse 302 []).URL sampleStd = Except.error http.ErrNoLocation
    ∧ (sampleResponse 200 [(str "Location", [str "/new-path"])]).URL sampleStd
        = Except.ok { Scheme := str "http", Host := str "host", Path := str "/old",
                      RawQuery := [], Fragment := [] } :=
  ⟨(URL_effective sampleStd (sampleResponse 302 [])).2.2.1
      { Scheme := str "http", Host := str "host", Path := str "/old", RawQuery := [],
        Fragment := [] }
      { Scheme := str "http", Host := str "host", Path := str "/new-path", RawQuery := [],
        Fragment := [] }
      { Scheme := [], Host := [], Path := str "/new-path", RawQuery := [], Fragment := [] }
      [] [] none rfl (by decide) (by decide),
   ((URL_effective sampleStd (sampleResponse 302 [])).2.1 (by decide)).1 rfl,
   (URL_effective sampleStd (sampleResponse 200 [(str "Location", [str "/new-path"])])).1
      (by decide) (by decide) (by decide) (by decide)⟩
/-- C10, at the header value " GzİP\u00a0" (U+0130 lowercases to "i", U+00A0 is white
space): both orders give "gzip". -/
theorem IsGzipped_agrees_witness :
    strings.TrimSpace (strings.ToLower sampleStd [0x20, 0x47, 0x7A, 0x130, 0x50, 0xA0])
        = str "gzip"
    ∧ strings.ToLower sampleStd (strings.TrimSpace [0x20, 0x47, 0x7A, 0x130, 0x50, 0xA0])
        = str "gzip"
    ∧ (sampleResponse 200
        [(str "Content-Encoding", [[0x20, 0x47, 0x7A, 0x130, 0x50, 0xA0]])]).IsGzipped sampleStd
        = true
    ∧ Encoding.resolved (sampleWorld [sampleGzip])
        ((sampleResponse 200
          [(str "Content-Encoding", [[0x20, 0x47, 0x7A, 0x130, 0x50, 0xA0]])]).DecompressedReader
            sampleStd (sampleWorld [sampleGzip])).2 = Encoding.gzip :=
  ⟨by decide, by decide, by decide,
    (IsGzipped_agrees sampleStd sampleStd_caseTable [] (sampleResponse 200
      [(str "Content-Encoding", [[0x20, 0x47, 0x7A, 0x130, 0x50, 0xA0]])])
      (sampleWorld [sampleGzip])).2.2.1.mp (by decide)⟩


end Request
